import Mathlib

/-!
Verification of the DocuGuard span-resolution and evaluation core.

The Python sources are shallowly embedded here:
* `is_luhn_valid` embeds `docuguard/entity/entity_recognizer.py:is_luhn_valid`
  (strings are modelled as `List Char`; `Char.isDigit` models Python's
  `str.isdigit` on the ASCII strings the pipeline feeds this function).
* `detect_entities_in_element` embeds the span-resolution part of
  `docuguard/entity/entity_recognizer.py:detect_entities_in_element`, with the
  two detector outputs (regex patterns, NER model) passed in as candidate
  lists, since the detectors are external capability providers.
* `convert_bio_to_offset_entities` embeds
  `docuguard/utils/data_loader.py:convert_bio_to_offset_entities`.
* `evaluate_state` / `process_pred` embed the matching loop of
  `evaluation/evaluation.py:evaluate_entity_detection`.
* `aggregate_documents` embeds the cross-document aggregation of
  `scripts/run_evaluation.py:run_kaggle_evaluation`.
Python floats are modelled as rationals (`ℚ`).
-/

/-! ### Luhn check (`entity_recognizer.py`, lines 11-19) -/

/-- Embeds `is_luhn_valid`.  Python:
`num = [int(d) for d in str(card_number) if d.isdigit()]` followed by
`checksum = sum(sum(divmod(2 * d, 10)) if i % 2 else d for i, d in enumerate(num[::-1]))`
and `return checksum % 10 == 0`.  `divmod(x, 10)` is `(x / 10, x % 10)`.
The `except` branch of the source is unreachable for ASCII input (every ASCII
character accepted by `isdigit` parses with `int`), so it does not appear. -/
def is_luhn_valid (card_number : List Char) : Bool :=
  let num := (card_number.filter Char.isDigit).map (fun d => d.toNat - 48)
  let checksum :=
    ((num.reverse.enum).map
      (fun p => if p.1 % 2 == 1 then (2 * p.2) / 10 + (2 * p.2) % 10 else p.2)).sum
  checksum % 10 == 0

/-- The digit-doubling step as the spec words it: double the digit and, when
the doubled result is at least 10, add its two decimal digits. -/
def luhn_double_digit (d : Nat) : Nat :=
  let x := 2 * d
  if x ≥ 10 then x / 10 + x % 10 else x

/-- Modelled from the spec's wording of the Luhn rule (for comparison with the
source function): reverse the digit order, double every second digit, add the
two digits of any doubled result ≥ 10, sum, and test the sum mod 10. -/
def luhn_spec (card_number : List Char) : Bool :=
  let digits := (card_number.filter Char.isDigit).map (fun d => d.toNat - 48)
  let total :=
    ((digits.reverse.enum).map
      (fun p => if p.1 % 2 == 1 then luhn_double_digit p.2 else p.2)).sum
  total % 10 == 0

lemma luhn_double_digit_eq (d : Nat) : (2 * d) / 10 + (2 * d) % 10 = luhn_double_digit d := by
  simp only [luhn_double_digit]
  split
  · rfl
  · omega

lemma is_luhn_valid_eq_spec (s : List Char) : is_luhn_valid s = luhn_spec s := by
  unfold is_luhn_valid luhn_spec
  have h : ∀ p : Nat × Nat,
      (if p.1 % 2 == 1 then (2 * p.2) / 10 + (2 * p.2) % 10 else p.2)
        = (if p.1 % 2 == 1 then luhn_double_digit p.2 else p.2) := by
    intro p
    by_cases hp : p.1 % 2 == 1 <;> simp [hp, luhn_double_digit_eq]
  simp only [h]

/-- Claim C5: the Luhn validity check computes exactly the spec's algorithm
(reverse digits, double every second, digit-sum doubled results ≥ 10, sum,
valid iff sum mod 10 = 0); `"4532015112830366"` passes and
`"4532015112830367"` fails. -/
theorem luhn_check_matches_spec :
    (∀ s : List Char, is_luhn_valid s = luhn_spec s)
      ∧ is_luhn_valid ("4532015112830366").data = true
      ∧ is_luhn_valid ("4532015112830367").data = false :=
  ⟨is_luhn_valid_eq_spec, by decide, by decide⟩

/-- Claim C10: on a string with no digit characters the digit list is empty,
the checksum is `0`, and the check reports valid; non-digit characters are
simply filtered out. -/
theorem luhn_no_digits_valid (s : List Char) (h : ∀ c ∈ s, c.isDigit = false) :
    is_luhn_valid s = true := by
  unfold is_luhn_valid
  have hf : s.filter Char.isDigit = [] := by
    apply List.filter_eq_nil_iff.2
    intro c hc
    simp [h c hc]
  simp [hf]

/-- Witness for C10 at the concrete digit-free inputs `"no digits here!"`
and `""`. -/
theorem luhn_no_digits_valid_witness :
    is_luhn_valid ("no digits here!").data = true ∧ is_luhn_valid ("").data = true :=
  ⟨luhn_no_digits_valid _ (by decide), luhn_no_digits_valid _ (by decide)⟩

/-! ### Span resolution (`entity_recognizer.py`, lines 79-130)

`detect_entities_in_element` takes the element text and the two candidate
lists produced by the external detectors (`_detect_pii_patterns` and
`_detect_ner_entities`) and embeds the merge loop of the source function:
Luhn-gate `CREDIT_CARD` pattern candidates, accept a candidate when the set
`set(range(start, end))` of its character indices does not intersect the
covered set, and finally sort ascending by `start_char` (Python's stable
sort is modelled by `List.insertionSort`, which is stable).  The element
text itself is never consulted by the merge loop, exactly as in the source,
where it is only handed to the detectors. -/

/-- One `(text, start, end, label)` tuple as emitted by a detector. -/
structure Candidate where
  text : List Char
  start_char : Int
  end_char : Int
  label : List Char
deriving DecidableEq

/-- Embeds the `Entity` dataclass; the `metadata` dict is flattened into its
two keys `source` and `element_type`. -/
structure Entity where
  text : List Char
  label : List Char
  start_char : Int
  end_char : Int
  base_risk_score : ℚ
  sensitivity_type : List Char
  source : List Char
  element_type : List Char
deriving DecidableEq

/-- Embeds the `BASE_RISK_SCORES` table of `entity_risk.py`. -/
def BASE_RISK_SCORES : List (List Char × ℚ) :=
  [(("EMAIL").data, 8/10), (("PHONE").data, 7/10), (("SSN").data, 1),
   (("DATE_PATTERN").data, 5/10), (("CREDIT_CARD").data, 1),
   (("ZIP_CODE").data, 4/10), (("ADDRESS").data, 7/10),
   (("PERSON").data, 6/10), (("ORG").data, 3/10), (("GPE").data, 2/10),
   (("LOC").data, 3/10), (("DATE").data, 5/10), (("TIME").data, 1/10),
   (("MONEY").data, 6/10), (("PERCENT").data, 5/100), (("FAC").data, 2/10),
   (("PRODUCT").data, 5/100), (("EVENT").data, 2/10),
   (("WORK_OF_ART").data, 5/100), (("LAW").data, 1/10),
   (("LANGUAGE").data, 0), (("NORP").data, 4/10), (("QUANTITY").data, 5/100),
   (("ORDINAL").data, 5/100), (("CARDINAL").data, 5/100),
   (("UNKNOWN").data, 0)]

/-- Embeds `assign_base_risk`: case-insensitive lookup, default is the
`UNKNOWN` score `0.0`. -/
def assign_base_risk (entity_type : List Char) : ℚ :=
  match List.lookup (entity_type.map Char.toUpper) BASE_RISK_SCORES with
  | some v => v
  | none => 0

/-- Embeds `classify_entity_sensitivity`.  The context branch for a `PERSON`
inside a heading only prints and falls through (`pass`), so the result
depends on the label alone. -/
def classify_entity_sensitivity (label : List Char) : List Char :=
  if label = ("EMAIL").data ∨ label = ("PHONE").data ∨ label = ("SSN").data
      ∨ label = ("CREDIT_CARD").data then
    ("explicit-identifier").data
  else
    ("quasi-identifier").data

/-- Embeds Python's `set(range(start, end))`: the character indices of the
half-open span, empty when `end_char ≤ start_char`. -/
def span_range (a b : Int) : List Int :=
  (List.range (b - a).toNat).map (fun k : Nat => a + (k : Int))

/-- The character-index range of an accepted entity. -/
def entity_range (e : Entity) : List Int :=
  span_range e.start_char e.end_char

/-- Builds the `Entity` appended by the merge loop for one accepted
candidate. -/
def make_entity (element_type : List Char) (src : List Char) (c : Candidate) : Entity :=
  { text := c.text, label := c.label, start_char := c.start_char,
    end_char := c.end_char, base_risk_score := assign_base_risk c.label,
    sensitivity_type := classify_entity_sensitivity c.label,
    source := src, element_type := element_type }

/-- The covered-set acceptance rule shared by both passes: accept the
candidate iff its index set does not intersect the covered set, then mark
its indices covered. -/
def add_candidate (element_type : List Char) (src : List Char)
    (acc : List Entity × List Int) (c : Candidate) : List Entity × List Int :=
  if (span_range c.start_char c.end_char).any (fun i => acc.2.contains i) then acc
  else (acc.1 ++ [make_entity element_type src c],
        acc.2 ++ span_range c.start_char c.end_char)

/-- Embeds `re.sub(r'[- ]', '', text_val)`. -/
def strip_separators (s : List Char) : List Char :=
  s.filter (fun ch => ¬ (ch = '-' ∨ ch = ' '))

/-- The pattern pass step: `CREDIT_CARD` candidates failing the Luhn check
are skipped (`continue`) before the overlap rule is consulted. -/
def pattern_step (element_type : List Char)
    (acc : List Entity × List Int) (c : Candidate) : List Entity × List Int :=
  if c.label = ("CREDIT_CARD").data ∧ is_luhn_valid (strip_separators c.text) = false then acc
  else add_candidate element_type ("pattern").data acc c

/-- Embeds the candidate-merging part of `detect_entities_in_element`
(lines 85-130): pattern candidates first (with the Luhn gate), then NER
candidates, then a stable ascending sort on `start_char`.  The `text`
argument mirrors `element.text`; as in the source, the merge itself never
reads it. -/
def detect_entities_in_element (text element_type : List Char)
    (pattern_entities ner_entities : List Candidate) : List Entity :=
  let acc1 := pattern_entities.foldl (pattern_step element_type) ([], [])
  let acc2 := ner_entities.foldl (add_candidate element_type ("ner").data) acc1
  List.insertionSort (fun a b => a.start_char ≤ b.start_char) acc2.1

/-! ### Resolver lemmas -/

lemma span_range_mem {a b i : Int} : i ∈ span_range a b ↔ a ≤ i ∧ i < b := by
  simp only [span_range, List.mem_map, List.mem_range]
  constructor
  · rintro ⟨k, hk, rfl⟩
    omega
  · intro h
    exact ⟨(i - a).toNat, by omega, by omega⟩

lemma span_range_empty {a b : Int} (h : b ≤ a) : span_range a b = [] := by
  have hz : (b - a).toNat = 0 := by omega
  simp [span_range, hz]

lemma make_entity_range (element_type src : List Char) (c : Candidate) :
    entity_range (make_entity element_type src c) = span_range c.start_char c.end_char := rfl

lemma any_contains_eq_false {l cov : List Int} :
    (l.any (fun i => cov.contains i)) = false ↔ ∀ i ∈ l, i ∉ cov := by
  simp [List.any_eq_false, List.elem_iff]

/-- The per-element resolver invariant: every accepted entity's character
indices are covered, and accepted entities have pairwise disjoint index
sets. -/
def resolver_inv (acc : List Entity × List Int) : Prop :=
  (∀ e ∈ acc.1, ∀ i ∈ entity_range e, i ∈ acc.2) ∧
    List.Pairwise (fun a b => ∀ i ∈ entity_range a, i ∉ entity_range b) acc.1

lemma add_candidate_inv (element_type src : List Char)
    (acc : List Entity × List Int) (c : Candidate) (h : resolver_inv acc) :
    resolver_inv (add_candidate element_type src acc c) := by
  unfold add_candidate
  split
  · exact h
  · rename_i hc
    have hdisj : ∀ i ∈ span_range c.start_char c.end_char, i ∉ acc.2 :=
      any_contains_eq_false.1 (by simpa using hc)
    refine ⟨?_, ?_⟩
    · intro e he i hi
      rcases List.mem_append.1 he with he' | he'
      · exact List.mem_append_left _ (h.1 e he' i hi)
      · have : e = make_entity element_type src c := by simpa using he'
        subst this
        rw [make_entity_range] at hi
        exact List.mem_append_right _ hi
    · rw [List.pairwise_append]
      refine ⟨h.2, List.pairwise_singleton _ _, ?_⟩
      intro a ha b hb i hia hib
      have hb' : b = make_entity element_type src c := by simpa using hb
      subst hb'
      rw [make_entity_range] at hib
      exact hdisj i hib (h.1 a ha i hia)

lemma pattern_step_inv (element_type : List Char)
    (acc : List Entity × List Int) (c : Candidate) (h : resolver_inv acc) :
    resolver_inv (pattern_step element_type acc c) := by
  unfold pattern_step
  split
  · exact h
  · exact add_candidate_inv _ _ _ _ h

lemma foldl_preserve {α β : Type} (f : β → α → β) (Q : β → Prop)
    (h : ∀ acc x, Q acc → Q (f acc x)) :
    ∀ (l : List α) (acc : β), Q acc → Q (l.foldl f acc)
  | [], _, ha => ha
  | x :: xs, acc, ha => foldl_preserve f Q h xs (f acc x) (h acc x ha)

lemma foldl_reach {α β : Type} (f : β → α → β) (Q : β → Prop)
    (hmono : ∀ acc x, Q acc → Q (f acc x)) (c : α) (hstep : ∀ acc, Q (f acc c)) :
    ∀ (l : List α), c ∈ l → ∀ acc : β, Q (l.foldl f acc)
  | x :: xs, hc, acc => by
    rcases List.mem_cons.1 hc with h | h
    · subst h
      exact foldl_preserve f Q hmono xs _ (hstep acc)
    · exact foldl_reach f Q hmono c hstep xs h (f acc x)

lemma resolver_acc_inv (element_type : List Char) (pats ners : List Candidate) :
    resolver_inv (ners.foldl (add_candidate element_type (("ner").data))
      (pats.foldl (pattern_step element_type) ([], []))) := by
  have h1 : resolver_inv (pats.foldl (pattern_step element_type) ([], [])) := by
    apply foldl_preserve _ _ (fun acc c h => pattern_step_inv element_type acc c h)
    exact ⟨by simp, List.Pairwise.nil⟩
  exact foldl_preserve _ _ (fun acc c h => add_candidate_inv element_type _ acc c h) _ _ h1

lemma range_disjoint_symm :
    ∀ {a b : Entity}, (∀ i ∈ entity_range a, i ∉ entity_range b) →
      ∀ i ∈ entity_range b, i ∉ entity_range a := by
  intro a b h i hib hia
  exact h i hia hib

instance : DecidableRel (fun a b : Entity => a.start_char ≤ b.start_char) :=
  fun a b => Int.decLe _ _

instance : IsTotal Entity (fun a b : Entity => a.start_char ≤ b.start_char) :=
  ⟨fun a b => Int.le_total _ _⟩

instance : IsTrans Entity (fun a b : Entity => a.start_char ≤ b.start_char) :=
  ⟨fun _ _ _ hab hbc => Int.le_trans hab hbc⟩

lemma detect_pairwise_disjoint (text element_type : List Char)
    (pats ners : List Candidate) :
    List.Pairwise (fun a b => ∀ i ∈ entity_range a, i ∉ entity_range b)
      (detect_entities_in_element text element_type pats ners) := by
  unfold detect_entities_in_element
  have hperm := List.perm_insertionSort (fun a b : Entity => a.start_char ≤ b.start_char)
    (ners.foldl (add_candidate element_type (("ner").data))
      (pats.foldl (pattern_step element_type) ([], []))).1
  exact (hperm.pairwise_iff (fun h => range_disjoint_symm h)).2
    (resolver_acc_inv element_type pats ners).2

lemma detect_sorted (text element_type : List Char) (pats ners : List Candidate) :
    List.Pairwise (fun a b : Entity => a.start_char ≤ b.start_char)
      (detect_entities_in_element text element_type pats ners) :=
  List.sorted_insertionSort _ _

/-- Claim C2: for every element and every pair of candidate lists, the
resolved entity list has pairwise non-overlapping character-index sets and is
sorted ascending (non-decreasingly) by `start_char`. -/
theorem resolved_entities_disjoint_and_sorted (text element_type : List Char)
    (pats ners : List Candidate) :
    List.Pairwise (fun a b => ∀ i ∈ entity_range a, i ∉ entity_range b)
      (detect_entities_in_element text element_type pats ners)
    ∧ List.Pairwise (fun a b : Entity => a.start_char ≤ b.start_char)
      (detect_entities_in_element text element_type pats ners) :=
  ⟨detect_pairwise_disjoint text element_type pats ners,
    detect_sorted text element_type pats ners⟩

/-! ### C1: invalid spans are not dropped -/

lemma add_candidate_mem_mono (element_type src : List Char)
    (acc : List Entity × List Int) (c : Candidate) (e : Entity) (he : e ∈ acc.1) :
    e ∈ (add_candidate element_type src acc c).1 := by
  unfold add_candidate
  split
  · exact he
  · exact List.mem_append_left _ he

lemma pattern_step_mem_mono (element_type : List Char)
    (acc : List Entity × List Int) (c : Candidate) (e : Entity) (he : e ∈ acc.1) :
    e ∈ (pattern_step element_type acc c).1 := by
  unfold pattern_step
  split
  · exact he
  · exact add_candidate_mem_mono _ _ _ _ _ he

lemma add_candidate_of_empty_span (element_type src : List Char)
    (acc : List Entity × List Int) (c : Candidate) (hc : c.end_char ≤ c.start_char) :
    add_candidate element_type src acc c = (acc.1 ++ [make_entity element_type src c], acc.2) := by
  unfold add_candidate
  rw [span_range_empty hc]
  simp

/-- The shape of the per-candidate goal used for C1: some accepted entity
carries exactly the candidate's text, label and span. -/
def carries (c : Candidate) (acc : List Entity × List Int) : Prop :=
  ∃ e ∈ acc.1, e.text = c.text ∧ e.label = c.label ∧ e.start_char = c.start_char
    ∧ e.end_char = c.end_char

lemma carries_after_add (element_type src : List Char)
    (acc : List Entity × List Int) (c : Candidate) (hc : c.end_char ≤ c.start_char) :
    carries c (add_candidate element_type src acc c) := by
  rw [add_candidate_of_empty_span element_type src acc c hc]
  exact ⟨make_entity element_type src c,
    List.mem_append_right _ (List.mem_singleton.2 rfl), rfl, rfl, rfl, rfl⟩

/-- Claim C1 (amended): the resolver never drops a candidate for having
`start_char ≥ end_char`; since its `set(range(start, end))` is empty, such a
candidate always passes the overlap test and is retained.  (A pattern-sourced
`CREDIT_CARD` candidate must additionally survive the Luhn gate.)  No error
is raised anywhere: the resolver is a total function. -/
theorem resolver_retains_degenerate_spans (text element_type : List Char)
    (pats ners : List Candidate) (c : Candidate)
    (hc : c.end_char ≤ c.start_char)
    (hin : c ∈ ners ∨ (c ∈ pats ∧ (c.label = (("CREDIT_CARD").data) →
      is_luhn_valid (strip_separators c.text) = true))) :
    ∃ e ∈ detect_entities_in_element text element_type pats ners,
      e.text = c.text ∧ e.label = c.label ∧ e.start_char = c.start_char
        ∧ e.end_char = c.end_char := by
  have hmono_add : ∀ acc c', carries c acc →
      carries c (add_candidate element_type (("ner").data) acc c') := by
    rintro acc c' ⟨e, he, hfields⟩
    exact ⟨e, add_candidate_mem_mono _ _ _ _ _ he, hfields⟩
  have hmono_pat : ∀ acc c', carries c acc → carries c (pattern_step element_type acc c') := by
    rintro acc c' ⟨e, he, hfields⟩
    exact ⟨e, pattern_step_mem_mono _ _ _ _ he, hfields⟩
  have hacc2 : carries c (ners.foldl (add_candidate element_type (("ner").data))
      (pats.foldl (pattern_step element_type) ([], []))) := by
    rcases hin with hn | ⟨hp, hluhn⟩
    · exact foldl_reach _ _ hmono_add c
        (fun acc => carries_after_add element_type _ acc c hc) ners hn _
    · have hstep : ∀ acc, carries c (pattern_step element_type acc c) := by
        intro acc
        unfold pattern_step
        split
        · rename_i hskip
          rw [hluhn hskip.1] at hskip
          exact absurd hskip.2 (by simp)
        · exact carries_after_add element_type _ acc c hc
      have h1 : carries c (pats.foldl (pattern_step element_type) ([], [])) :=
        foldl_reach _ _ hmono_pat c hstep pats hp _
      exact foldl_preserve _ _ hmono_add ners _ h1
  rcases hacc2 with ⟨e, he, hfields⟩
  refine ⟨e, ?_, hfields⟩
  unfold detect_entities_in_element
  exact (List.perm_insertionSort _ _).mem_iff.2 he

/-- Counterexample to claim C1 as stated: the candidate `(5, 5)` has
`start >= end`, yet the resolver keeps it — it appears in the resolved
entity list instead of being dropped. -/
theorem invalid_span_kept_cex :
    ∃ e ∈ detect_entities_in_element (("hello").data) (("paragraph").data) []
        [⟨("x").data, 5, 5, ("PERSON").data⟩],
      e.start_char = 5 ∧ e.end_char = 5 := by decide

/-- Witness for the amended C1 at a concrete degenerate-span model
candidate. -/
theorem resolver_retains_degenerate_spans_witness :
    ∃ e ∈ detect_entities_in_element (("hi").data) (("heading").data) []
        [⟨("y").data, 7, 3, ("ORG").data⟩],
      e.text = ("y").data ∧ e.label = ("ORG").data ∧ e.start_char = 7 ∧ e.end_char = 3 :=
  resolver_retains_degenerate_spans (("hi").data) (("heading").data) []
    [⟨("y").data, 7, 3, ("ORG").data⟩] ⟨("y").data, 7, 3, ("ORG").data⟩
    (by decide) (Or.inl (by decide))

/-! ### C6: pattern precedence over model candidates -/

lemma pattern_pass_sources (element_type : List Char) (pats : List Candidate) :
    ∀ e ∈ (pats.foldl (pattern_step element_type) ([], [])).1,
      e.source = ("pattern").data := by
  apply foldl_preserve (pattern_step element_type)
    (fun acc => ∀ e ∈ acc.1, e.source = ("pattern").data)
  · intro acc c h e he
    unfold pattern_step at he
    split at he
    · exact h e he
    · unfold add_candidate at he
      split at he
      · exact h e he
      · rcases List.mem_append.1 he with he' | he'
        · exact h e he'
        · have : e = make_entity element_type (("pattern").data) c := by simpa using he'
          subst this
          rfl
  · intro e he
    exact absurd he (List.not_mem_nil e)

lemma add_candidate_overlap (element_type src : List Char)
    (acc : List Entity × List Int) (c : Candidate)
    (h : ((span_range c.start_char c.end_char).any (fun i => acc.2.contains i)) = true) :
    add_candidate element_type src acc c = acc := by
  unfold add_candidate
  rw [if_pos h]

lemma add_candidate_free (element_type src : List Char)
    (acc : List Entity × List Int) (c : Candidate)
    (h : ((span_range c.start_char c.end_char).any (fun i => acc.2.contains i)) = false) :
    add_candidate element_type src acc c
      = (acc.1 ++ [make_entity element_type src c],
         acc.2 ++ span_range c.start_char c.end_char) := by
  unfold add_candidate
  rw [if_neg (by rw [h]; exact Bool.false_ne_true)]

lemma ner_fold_appends (element_type : List Char) :
    ∀ (ners : List Candidate) (acc : List Entity × List Int),
      ∃ suf : List Entity,
        (ners.foldl (add_candidate element_type (("ner").data)) acc).1 = acc.1 ++ suf
          ∧ ∀ e ∈ suf, e.source = ("ner").data
  | [], acc => ⟨[], by simp, by simp⟩
  | c :: cs, acc => by
    obtain ⟨suf, hsuf, hsrc⟩ :=
      ner_fold_appends element_type cs (add_candidate element_type (("ner").data) acc c)
    simp only [List.foldl_cons]
    by_cases hcond : ((span_range c.start_char c.end_char).any (fun i => acc.2.contains i)) = true
    · rw [add_candidate_overlap element_type (("ner").data) acc c hcond] at hsuf ⊢
      exact ⟨suf, hsuf, hsrc⟩
    · rw [Bool.not_eq_true] at hcond
      rw [add_candidate_free element_type (("ner").data) acc c hcond] at hsuf ⊢
      refine ⟨make_entity element_type (("ner").data) c :: suf, ?_, ?_⟩
      · rw [hsuf]
        simp
      · intro e he
        rcases List.mem_cons.1 he with he' | he'
        · subst he'; rfl
        · exact hsrc e he'

lemma filter_pattern_of_sources {l : List Entity}
    (h : ∀ e ∈ l, e.source = ("pattern").data) :
    l.filter (fun e => e.source == ("pattern").data) = l := by
  apply List.filter_eq_self.2
  intro e he
  simp [h e he]

lemma filter_pattern_of_ner {l : List Entity}
    (h : ∀ e ∈ l, e.source = ("ner").data) :
    l.filter (fun e => e.source == ("pattern").data) = [] := by
  apply List.filter_eq_nil_iff.2
  intro e he
  simp [h e he]

/-- Claim C6 (amended): the retained pattern-sourced entities are determined
by the pattern list alone — filtering the resolved output to pattern-sourced
entities gives (up to the final sort) the same collection whatever the model
candidate list is — and a model-sourced entity can never be retained on
positions overlapping a retained pattern-sourced entity, regardless of the
order of either list. -/
theorem pattern_precedence_over_model (text element_type : List Char)
    (pats ners : List Candidate) :
    ((detect_entities_in_element text element_type pats ners).filter
        (fun e => e.source == ("pattern").data)).Perm
      ((detect_entities_in_element text element_type pats []).filter
        (fun e => e.source == ("pattern").data))
    ∧ (∀ e1 ∈ detect_entities_in_element text element_type pats ners,
       ∀ e2 ∈ detect_entities_in_element text element_type pats ners,
        e1.source = ("pattern").data → e2.source = ("ner").data →
          ∀ i ∈ entity_range e1, i ∉ entity_range e2) := by
  constructor
  · have hbase := pattern_pass_sources element_type pats
    obtain ⟨suf, hsuf, hsrc⟩ := ner_fold_appends element_type ners
      (pats.foldl (pattern_step element_type) ([], []))
    have hperm1 : ((detect_entities_in_element text element_type pats ners).filter
        (fun e => e.source == ("pattern").data)).Perm
        (pats.foldl (pattern_step element_type) ([], [])).1 := by
      unfold detect_entities_in_element
      refine ((List.perm_insertionSort _ _).filter _).trans ?_
      rw [hsuf, List.filter_append, filter_pattern_of_sources hbase,
        filter_pattern_of_ner hsrc, List.append_nil]
    have hperm2 : ((detect_entities_in_element text element_type pats []).filter
        (fun e => e.source == ("pattern").data)).Perm
        (pats.foldl (pattern_step element_type) ([], [])).1 := by
      unfold detect_entities_in_element
      refine ((List.perm_insertionSort _ _).filter _).trans ?_
      simp only [List.foldl_nil]
      rw [filter_pattern_of_sources hbase]
    exact hperm1.trans hperm2.symm
  · intro e1 h1 e2 h2 hs1 hs2
    have hne : e1 ≠ e2 := by
      intro h
      rw [h, hs2] at hs1
      exact absurd hs1 (by decide)
    exact (detect_pairwise_disjoint text element_type pats ners).forall
      (fun {x y} h => range_disjoint_symm h) h1 h2 hne

/-- Counterexample to claim C6 as stated: the pattern candidate `[4,9)` and
the model candidate `[6,9)` overlap (position `6` lies in both), yet the
model candidate is the one retained — the pattern candidate had already been
discarded against an earlier pattern candidate covering position `4`. -/
theorem pattern_loses_to_model_cex :
    ((6 : Int) ∈ span_range 4 9 ∧ (6 : Int) ∈ span_range 6 9)
    ∧ (∃ e ∈ detect_entities_in_element (("0123456789").data) (("paragraph").data)
          [⟨("01234").data, 0, 5, ("PERSON").data⟩, ⟨("45678").data, 4, 9, ("PERSON").data⟩]
          [⟨("678").data, 6, 9, ("ORG").data⟩],
        e.start_char = 6 ∧ e.end_char = 9 ∧ e.source = ("ner").data)
    ∧ (∀ e ∈ detect_entities_in_element (("0123456789").data) (("paragraph").data)
          [⟨("01234").data, 0, 5, ("PERSON").data⟩, ⟨("45678").data, 4, 9, ("PERSON").data⟩]
          [⟨("678").data, 6, 9, ("ORG").data⟩],
        ¬ (e.start_char = 4 ∧ e.end_char = 9)) := by decide

/-- Witness for the amended C6 at concrete candidate lists: the retained
pattern entity `[0,5)` excludes position `4` from the retained model entity
`[6,9)`. -/
theorem pattern_precedence_over_model_witness :
    (4 : Int) ∉ entity_range (make_entity (("paragraph").data) (("ner").data)
      ⟨("678").data, 6, 9, ("ORG").data⟩) := by
  have heq : detect_entities_in_element (("0123456789").data) (("paragraph").data)
      [⟨("01234").data, 0, 5, ("PERSON").data⟩] [⟨("678").data, 6, 9, ("ORG").data⟩]
      = [make_entity (("paragraph").data) (("pattern").data)
           ⟨("01234").data, 0, 5, ("PERSON").data⟩,
         make_entity (("paragraph").data) (("ner").data)
           ⟨("678").data, 6, 9, ("ORG").data⟩] := rfl
  refine (pattern_precedence_over_model (("0123456789").data) (("paragraph").data)
      [⟨("01234").data, 0, 5, ("PERSON").data⟩] [⟨("678").data, 6, 9, ("ORG").data⟩]).2
    (make_entity (("paragraph").data) (("pattern").data)
      ⟨("01234").data, 0, 5, ("PERSON").data⟩) ?_
    (make_entity (("paragraph").data) (("ner").data)
      ⟨("678").data, 6, 9, ("ORG").data⟩) ?_ rfl rfl 4 (by decide)
  · rw [heq]
    exact List.mem_cons_self _ _
  · rw [heq]
    exact List.mem_cons_of_mem _ (List.mem_cons_self _ _)

/-! ### BIO-to-offset conversion (`data_loader.py`, lines 35-117)

The converter walks the token/tag/trailing-whitespace triples (Python's
`zip` truncates to the shortest input), locates each token in the raw text
with `str.index(token, search_start)` after skipping whitespace, and keeps
an "open entity" consisting of the accumulated tokens, the label and the
start offset; `-1` is the source's start-offset sentinel.  `py_slice`
models Python's `full_text[a:b]` slicing, including a negative `a`. -/

/-- One ground-truth entity dict
`{text, label, start_char, end_char}`; `label` is `none` when the source
holds Python `None`. -/
structure GtEntity where
  text : List Char
  label : Option (List Char)
  start_char : Int
  end_char : Nat
deriving DecidableEq

/-- Python's `full_text[a : b]` for an `Int` lower bound and `Nat` upper
bound: a negative `a` counts from the end and is clamped at `0`. -/
def py_slice (l : List Char) (a : Int) (b : Nat) : List Char :=
  if a < 0 then (l.take b).drop ((a + l.length).toNat) else (l.take b).drop a.toNat

/-- The ASCII fragment of Python's `str.isspace`, which is what the
whitespace-skipping loop of the source consults. -/
def py_isspace (c : Char) : Bool :=
  c == ' ' || c == '\t' || c == '\n' || c == '\x0b' || c == '\x0c' || c == '\r'

/-- Embeds the `while search_start < len(full_text) and
full_text[search_start].isspace(): search_start += 1` loop. -/
def skip_whitespace (text : List Char) (s : Nat) : Nat :=
  s + ((text.drop s).takeWhile py_isspace).length

/-- Embeds `full_text.index(token, s)` as an `Option`: the least position
`r ≥ s` at which `token` occurs as a contiguous substring, `none` when
there is no occurrence (Python raises `ValueError`, which the source
catches). -/
def str_find (text tok : List Char) (s : Nat) : Option Nat :=
  (List.range (text.length + 1)).find?
    (fun i => decide (s ≤ i) && List.isPrefixOf tok (text.drop i))

/-- The converter's loop state: the output accumulated so far plus the
open-entity bookkeeping and the text cursor. -/
structure BioState where
  entities : List GtEntity
  current_entity_tokens : List (List Char)
  current_entity_label : Option (List Char)
  current_entity_start_char : Int
  current_char_idx : Nat
  previous_token_end_char : Nat
deriving DecidableEq

/-- The entity dict appended when an open entity is closed: its `text` is
`full_text[current_entity_start_char : previous_token_end_char]`. -/
def close_entity (full_text : List Char) (st : BioState) : GtEntity :=
  { text := py_slice full_text st.current_entity_start_char st.previous_token_end_char,
    label := st.current_entity_label,
    start_char := st.current_entity_start_char,
    end_char := st.previous_token_end_char }

/-- The per-token transition of the converter, after the token has been
located at `start_char`: branch on `B-` / `I-` / other exactly as the
source does, then record the new cursor and previous-token end. -/
def bio_step (full_text : List Char) (st : BioState)
    (token bio_label : List Char) (start_char : Nat) : BioState :=
  let end_char := start_char + token.length
  let entity_type : Option (List Char) :=
    if bio_label.length > 1 then some (bio_label.drop 2) else none
  if List.isPrefixOf (("B-").data) bio_label then
    { entities :=
        if st.current_entity_tokens ≠ [] then st.entities ++ [close_entity full_text st]
        else st.entities,
      current_entity_tokens := [token],
      current_entity_label := entity_type,
      current_entity_start_char := (start_char : Int),
      current_char_idx := end_char,
      previous_token_end_char := end_char }
  else if List.isPrefixOf (("I-").data) bio_label then
    if st.current_entity_tokens ≠ [] ∧ entity_type = st.current_entity_label then
      { st with
        current_entity_tokens := st.current_entity_tokens ++ [token],
        current_char_idx := end_char,
        previous_token_end_char := end_char }
    else
      { entities :=
          if st.current_entity_tokens ≠ [] then st.entities ++ [close_entity full_text st]
          else st.entities,
        current_entity_tokens := [],
        current_entity_label := none,
        current_entity_start_char := -1,
        current_char_idx := end_char,
        previous_token_end_char := end_char }
  else
    { entities :=
        if st.current_entity_tokens ≠ [] then st.entities ++ [close_entity full_text st]
        else st.entities,
      current_entity_tokens := [],
      current_entity_label := none,
      current_entity_start_char := -1,
      current_char_idx := end_char,
      previous_token_end_char := end_char }

/-- The conversion loop: locate each token (aborting the whole conversion
with `[]` when a token cannot be found), apply the transition, and close
any entity still open when the input is exhausted. -/
def bio_go (full_text : List Char) :
    List (List Char × List Char × Bool) → BioState → List GtEntity
  | [], st =>
    if st.current_entity_tokens ≠ [] then st.entities ++ [close_entity full_text st]
    else st.entities
  | (token, bio_label, _ws) :: rest, st =>
    match str_find full_text token (skip_whitespace full_text st.current_char_idx) with
    | none => []
    | some start_char => bio_go full_text rest (bio_step full_text st token bio_label start_char)

/-- Python's three-way `zip`, truncating to the shortest list. -/
def zip3 {α β γ : Type} : List α → List β → List γ → List (α × β × γ)
  | a :: as, b :: bs, c :: cs => (a, b, c) :: zip3 as bs cs
  | _, _, _ => []

/-- The converter's initial state (`entities=[]`, no open entity,
`current_char_idx=0`, `previous_token_end_char=0`). -/
def bio_init : BioState :=
  { entities := [], current_entity_tokens := [], current_entity_label := none,
    current_entity_start_char := -1, current_char_idx := 0,
    previous_token_end_char := 0 }

/-- Embeds `convert_bio_to_offset_entities`. -/
def convert_bio_to_offset_entities (tokens labels : List (List Char))
    (trailing_whitespace : List Bool) (full_text : List Char) : List GtEntity :=
  bio_go full_text (zip3 tokens labels trailing_whitespace) bio_init

/-! ### C4 / C7: converter boundary behaviour -/

lemma bio_step_B_open (full_text token bio_label : List Char) (st : BioState) (r : Nat)
    (hB : List.isPrefixOf (("B-").data) bio_label = true)
    (hopen : st.current_entity_tokens ≠ []) :
    bio_step full_text st token bio_label r
      = { entities := st.entities ++ [close_entity full_text st],
          current_entity_tokens := [token],
          current_entity_label :=
            if bio_label.length > 1 then some (bio_label.drop 2) else none,
          current_entity_start_char := (r : Int),
          current_char_idx := r + token.length,
          previous_token_end_char := r + token.length } := by
  simp only [bio_step]
  rw [if_pos hB, if_pos hopen]

lemma bio_step_B_closed (full_text token bio_label : List Char) (st : BioState) (r : Nat)
    (hB : List.isPrefixOf (("B-").data) bio_label = true)
    (hclosed : ¬ st.current_entity_tokens ≠ []) :
    bio_step full_text st token bio_label r
      = { entities := st.entities,
          current_entity_tokens := [token],
          current_entity_label :=
            if bio_label.length > 1 then some (bio_label.drop 2) else none,
          current_entity_start_char := (r : Int),
          current_char_idx := r + token.length,
          previous_token_end_char := r + token.length } := by
  simp only [bio_step]
  rw [if_pos hB, if_neg hclosed]

lemma bio_step_close_open (full_text token bio_label : List Char) (st : BioState) (r : Nat)
    (hB : List.isPrefixOf (("B-").data) bio_label = false)
    (hI : List.isPrefixOf (("I-").data) bio_label = false
      ∨ (if bio_label.length > 1 then some (bio_label.drop 2) else none)
          ≠ st.current_entity_label)
    (hopen : st.current_entity_tokens ≠ []) :
    bio_step full_text st token bio_label r
      = { entities := st.entities ++ [close_entity full_text st],
          current_entity_tokens := [],
          current_entity_label := none,
          current_entity_start_char := -1,
          current_char_idx := r + token.length,
          previous_token_end_char := r + token.length } := by
  simp only [bio_step]
  rw [if_neg (by rw [hB]; exact Bool.false_ne_true)]
  rcases hI with hI | hI
  · rw [if_neg (by rw [hI]; exact Bool.false_ne_true), if_pos hopen]
  · by_cases hI2 : List.isPrefixOf (("I-").data) bio_label = true
    · rw [if_pos hI2, if_neg (fun hand => hI hand.2), if_pos hopen]
    · rw [if_neg hI2, if_pos hopen]

lemma bio_go_cons_found (full_text token bio_label : List Char) (ws : Bool)
    (rest : List (List Char × List Char × Bool)) (st : BioState) (r : Nat)
    (h : str_find full_text token (skip_whitespace full_text st.current_char_idx) = some r) :
    bio_go full_text ((token, bio_label, ws) :: rest) st
      = bio_go full_text rest (bio_step full_text st token bio_label r) := by
  simp only [bio_go, h]

/-- Claim C7: when some token cannot be located in the full text at or after
the current cursor, the whole conversion aborts with `[]` — whatever entities
were already accumulated in the state are discarded, and no exception
escapes (the embedding is a total function; the source catches the
`ValueError`). -/
theorem bio_abort_on_missing_token (full_text token bio_label : List Char) (ws : Bool)
    (rest : List (List Char × List Char × Bool)) (st : BioState)
    (h : str_find full_text token (skip_whitespace full_text st.current_char_idx) = none) :
    bio_go full_text ((token, bio_label, ws) :: rest) st = [] := by
  simp only [bio_go, h]

/-- Witness for C7: token `"zzz"` does not occur in `"abc"`; the conversion
returns `[]` even though an entity had already been accumulated. -/
theorem bio_abort_on_missing_token_witness :
    bio_go (("abc").data) [((("zzz").data), ("O").data, false)]
      { entities := [{ text := ("x").data, label := some (("Q").data),
                       start_char := 0, end_char := 1 }],
        current_entity_tokens := [("x").data],
        current_entity_label := some (("Q").data),
        current_entity_start_char := 0,
        current_char_idx := 1, previous_token_end_char := 1 } = [] :=
  bio_abort_on_missing_token (("abc").data) (("zzz").data) (("O").data) false [] _ (by decide)

/-- Claim C4: on a `B-` tag with an entity open, the conversion closes the
open entity at the *previous* token's end offset and opens a new entity at
the current token's start offset; on a non-matching `I-` tag or an `O` tag
with an entity open, it closes the open entity at the previous token's end
offset and clears the open-entity state; and on the concrete input
`["John","Doe","works"]` / `["B-PERSON","I-PERSON","O"]` over
`"John Doe works"` it produces exactly
`{text := "John Doe", label := PERSON, start_char := 0, end_char := 8}`. -/
theorem bio_close_and_open_boundaries :
    (∀ (full_text token bio_label : List Char) (ws : Bool)
        (rest : List (List Char × List Char × Bool)) (st : BioState) (r : Nat),
      List.isPrefixOf (("B-").data) bio_label = true →
      st.current_entity_tokens ≠ [] →
      str_find full_text token (skip_whitespace full_text st.current_char_idx) = some r →
      bio_go full_text ((token, bio_label, ws) :: rest) st
        = bio_go full_text rest
            { entities := st.entities ++
                [{ text := py_slice full_text st.current_entity_start_char
                     st.previous_token_end_char,
                   label := st.current_entity_label,
                   start_char := st.current_entity_start_char,
                   end_char := st.previous_token_end_char }],
              current_entity_tokens := [token],
              current_entity_label :=
                if bio_label.length > 1 then some (bio_label.drop 2) else none,
              current_entity_start_char := (r : Int),
              current_char_idx := r + token.length,
              previous_token_end_char := r + token.length })
    ∧ (∀ (full_text token bio_label : List Char) (ws : Bool)
        (rest : List (List Char × List Char × Bool)) (st : BioState) (r : Nat),
      List.isPrefixOf (("B-").data) bio_label = false →
      (List.isPrefixOf (("I-").data) bio_label = false
        ∨ (if bio_label.length > 1 then some (bio_label.drop 2) else none)
            ≠ st.current_entity_label) →
      st.current_entity_tokens ≠ [] →
      str_find full_text token (skip_whitespace full_text st.current_char_idx) = some r →
      bio_go full_text ((token, bio_label, ws) :: rest) st
        = bio_go full_text rest
            { entities := st.entities ++
                [{ text := py_slice full_text st.current_entity_start_char
                     st.previous_token_end_char,
                   label := st.current_entity_label,
                   start_char := st.current_entity_start_char,
                   end_char := st.previous_token_end_char }],
              current_entity_tokens := [],
              current_entity_label := none,
              current_entity_start_char := -1,
              current_char_idx := r + token.length,
              previous_token_end_char := r + token.length })
    ∧ convert_bio_to_offset_entities
        [("John").data, ("Doe").data, ("works").data]
        [("B-PERSON").data, ("I-PERSON").data, ("O").data]
        [true, true, false] (("John Doe works").data)
      = [{ text := ("John Doe").data, label := some (("PERSON").data),
           start_char := 0, end_char := 8 }] := by
  refine ⟨?_, ?_, by decide⟩
  · intro full_text token bio_label ws rest st r hB hopen hfind
    rw [bio_go_cons_found full_text token bio_label ws rest st r hfind,
      bio_step_B_open full_text token bio_label st r hB hopen]
    rfl
  · intro full_text token bio_label ws rest st r hB hI hopen hfind
    rw [bio_go_cons_found full_text token bio_label ws rest st r hfind,
      bio_step_close_open full_text token bio_label st r hB hI hopen]
    rfl

/-- Witness for C4 at a concrete open state: the `B-PERSON` tag on token
`"cd"` of `"ab cd"` closes the open entity at offset `2` (the previous
token's end) and opens a new entity at offset `3`. -/
theorem bio_close_and_open_boundaries_witness :
    bio_go (("ab cd").data) [((("cd").data), ("B-PERSON").data, false)]
      { entities := [], current_entity_tokens := [("ab").data],
        current_entity_label := some (("Q").data),
        current_entity_start_char := 0,
        current_char_idx := 2, previous_token_end_char := 2 }
      = [{ text := ("ab").data, label := some (("Q").data), start_char := 0, end_char := 2 },
         { text := ("cd").data, label := some (("PERSON").data), start_char := 3, end_char := 5 }] := by
  rw [bio_close_and_open_boundaries.1 (("ab cd").data) (("cd").data) (("B-PERSON").data)
    false [] _ 3 (by decide) (by decide) (by decide)]
  decide

/-! ### C9: converter output invariants -/

lemma py_slice_of_nonneg (l : List Char) (a : Int) (b : Nat) (h : 0 ≤ a) :
    py_slice l a b = (l.take b).drop a.toNat := by
  unfold py_slice
  rw [if_neg (by omega)]

lemma str_find_le {text tok : List Char} {s r : Nat} (h : str_find text tok s = some r) :
    s ≤ r := by
  have h' := List.find?_some h
  simp only [Bool.and_eq_true, decide_eq_true_eq] at h'
  exact h'.1

lemma skip_whitespace_le (text : List Char) (s : Nat) : s ≤ skip_whitespace text s :=
  Nat.le_add_right _ _

/-- The upper bound, at a given state, on the `end_char` of every entity
already emitted: the open entity's start offset when one is open, else the
previous token's end. -/
def bio_bound (st : BioState) : Int :=
  if st.current_entity_tokens ≠ [] then st.current_entity_start_char
  else (st.previous_token_end_char : Int)

/-- The converter's loop invariant: the cursor and previous-token end agree
after every iteration, emitted entities are well-formed, chained below
`bio_bound`, and pairwise ordered, and an open entity has a nonnegative
start strictly below the previous token's end. -/
def bio_inv (full_text : List Char) (st : BioState) : Prop :=
  st.previous_token_end_char = st.current_char_idx
  ∧ List.Pairwise (fun a b => (a.end_char : Int) ≤ b.start_char) st.entities
  ∧ (∀ e ∈ st.entities, 0 ≤ e.start_char ∧ e.start_char < (e.end_char : Int)
      ∧ e.text = (full_text.take e.end_char).drop e.start_char.toNat
      ∧ (e.end_char : Int) ≤ bio_bound st)
  ∧ (st.current_entity_tokens ≠ [] →
      0 ≤ st.current_entity_start_char
        ∧ st.current_entity_start_char < (st.previous_token_end_char : Int))

lemma closed_entity_facts (full_text : List Char) (st : BioState)
    (hinv : bio_inv full_text st) (hopen : st.current_entity_tokens ≠ []) :
    (0 ≤ (close_entity full_text st).start_char
      ∧ (close_entity full_text st).start_char < ((close_entity full_text st).end_char : Int)
      ∧ (close_entity full_text st).text
          = (full_text.take (close_entity full_text st).end_char).drop
              (close_entity full_text st).start_char.toNat)
    ∧ (∀ a ∈ st.entities, (a.end_char : Int) ≤ (close_entity full_text st).start_char) := by
  obtain ⟨h1, h2, h3, h4⟩ := hinv
  obtain ⟨hs0, hsP⟩ := h4 hopen
  refine ⟨⟨hs0, hsP, ?_⟩, ?_⟩
  · simp only [close_entity]
    exact py_slice_of_nonneg _ _ _ hs0
  · intro a ha
    have hb := (h3 a ha).2.2.2
    simp only [bio_bound, if_pos hopen] at hb
    exact hb

lemma bio_step_I_match (full_text token bio_label : List Char) (st : BioState) (r : Nat)
    (hI : List.isPrefixOf (("I-").data) bio_label = true)
    (hB : List.isPrefixOf (("B-").data) bio_label = false)
    (hcond : st.current_entity_tokens ≠ []
      ∧ (if bio_label.length > 1 then some (bio_label.drop 2) else none)
          = st.current_entity_label) :
    bio_step full_text st token bio_label r
      = { st with
          current_entity_tokens := st.current_entity_tokens ++ [token],
          current_char_idx := r + token.length,
          previous_token_end_char := r + token.length } := by
  simp only [bio_step]
  rw [if_neg (by rw [hB]; exact Bool.false_ne_true), if_pos hI, if_pos hcond]

lemma bio_step_no_open (full_text token bio_label : List Char) (st : BioState) (r : Nat)
    (hB : List.isPrefixOf (("B-").data) bio_label = false)
    (hclosed : st.current_entity_tokens = []) :
    bio_step full_text st token bio_label r
      = { entities := st.entities,
          current_entity_tokens := [],
          current_entity_label := none,
          current_entity_start_char := -1,
          current_char_idx := r + token.length,
          previous_token_end_char := r + token.length } := by
  have hne : ¬ st.current_entity_tokens ≠ [] := by simp [hclosed]
  simp only [bio_step]
  rw [if_neg (by rw [hB]; exact Bool.false_ne_true)]
  by_cases hI : List.isPrefixOf (("I-").data) bio_label = true
  · rw [if_pos hI, if_neg (fun hand => hne hand.1), if_neg hne]
  · rw [if_neg hI, if_neg hne]

lemma bio_step_inv (full_text token bio_label : List Char) (st : BioState) (r : Nat)
    (htok : token ≠ []) (hr : st.current_char_idx ≤ r) (hinv : bio_inv full_text st) :
    bio_inv full_text (bio_step full_text st token bio_label r) := by
  have hlen : 0 < token.length := List.length_pos.2 htok
  have hPr : st.previous_token_end_char ≤ r := hinv.1 ▸ hr
  by_cases hB : List.isPrefixOf (("B-").data) bio_label = true
  · by_cases hopen : st.current_entity_tokens ≠ []
    · rw [bio_step_B_open full_text token bio_label st r hB hopen]
      obtain ⟨⟨hs0, hsP, htxt⟩, hchain⟩ := closed_entity_facts full_text st hinv hopen
      obtain ⟨h1, h2, h3, h4⟩ := hinv
      obtain ⟨ho0, hoP⟩ := h4 hopen
      refine ⟨rfl, ?_, ?_, ?_⟩
      · rw [List.pairwise_append]
        exact ⟨h2, List.pairwise_singleton _ _,
          fun a ha b hb => by
            have : b = close_entity full_text st := by simpa using hb
            subst this
            exact hchain a ha⟩
      · intro e he
        rcases List.mem_append.1 he with he' | he'
        · obtain ⟨e1, e2, e3, e4⟩ := h3 e he'
          refine ⟨e1, e2, e3, ?_⟩
          simp only [bio_bound, if_pos hopen] at e4
          simp only [bio_bound]
          rw [if_pos (by simp : ([token] : List (List Char)) ≠ [])]
          have : st.current_entity_start_char < (st.previous_token_end_char : Int) := hoP
          omega
        · have : e = close_entity full_text st := by simpa using he'
          subst this
          refine ⟨hs0, hsP, htxt, ?_⟩
          simp only [bio_bound]
          rw [if_pos (by simp : ([token] : List (List Char)) ≠ [])]
          simp only [close_entity]
          omega
      · intro _
        refine ⟨?_, ?_⟩ <;> · dsimp only; omega
    · rw [bio_step_B_closed full_text token bio_label st r hB hopen]
      obtain ⟨h1, h2, h3, h4⟩ := hinv
      refine ⟨rfl, h2, ?_, ?_⟩
      · intro e he
        obtain ⟨e1, e2, e3, e4⟩ := h3 e he
        refine ⟨e1, e2, e3, ?_⟩
        simp only [bio_bound, if_neg hopen] at e4
        simp only [bio_bound]
        rw [if_pos (by simp : ([token] : List (List Char)) ≠ [])]
        omega
      · intro _
        refine ⟨?_, ?_⟩ <;> · dsimp only; omega
  · rw [Bool.not_eq_true] at hB
    by_cases hopen : st.current_entity_tokens ≠ []
    · by_cases hIm : List.isPrefixOf (("I-").data) bio_label = true
        ∧ (if bio_label.length > 1 then some (bio_label.drop 2) else none)
            = st.current_entity_label
      · rw [bio_step_I_match full_text token bio_label st r hIm.1 hB ⟨hopen, hIm.2⟩]
        obtain ⟨h1, h2, h3, h4⟩ := hinv
        obtain ⟨ho0, hoP⟩ := h4 hopen
        have hopen' : st.current_entity_tokens ++ [token] ≠ [] := by simp
        refine ⟨rfl, h2, ?_, ?_⟩
        · intro e he
          obtain ⟨e1, e2, e3, e4⟩ := h3 e he
          refine ⟨e1, e2, e3, ?_⟩
          simp only [bio_bound, if_pos hopen] at e4
          simp only [bio_bound]
          rw [if_pos (by simpa using hopen' :
            ({ st with
                current_entity_tokens := st.current_entity_tokens ++ [token],
                current_char_idx := r + token.length,
                previous_token_end_char := r + token.length } :
              BioState).current_entity_tokens ≠ [])]
          exact e4
        · intro _
          refine ⟨ho0, ?_⟩
          dsimp only
          omega
      · have hI : List.isPrefixOf (("I-").data) bio_label = false
            ∨ (if bio_label.length > 1 then some (bio_label.drop 2) else none)
                ≠ st.current_entity_label := by
          by_cases hI2 : List.isPrefixOf (("I-").data) bio_label = true
          · exact Or.inr (fun h => hIm ⟨hI2, h⟩)
          · exact Or.inl (by rwa [Bool.not_eq_true] at hI2)
        rw [bio_step_close_open full_text token bio_label st r hB hI hopen]
        obtain ⟨⟨hs0, hsP, htxt⟩, hchain⟩ := closed_entity_facts full_text st hinv hopen
        obtain ⟨h1, h2, h3, h4⟩ := hinv
        obtain ⟨ho0, hoP⟩ := h4 hopen
        refine ⟨rfl, ?_, ?_, ?_⟩
        · rw [List.pairwise_append]
          exact ⟨h2, List.pairwise_singleton _ _,
            fun a ha b hb => by
              have : b = close_entity full_text st := by simpa using hb
              subst this
              exact hchain a ha⟩
        · intro e he
          rcases List.mem_append.1 he with he' | he'
          · obtain ⟨e1, e2, e3, e4⟩ := h3 e he'
            refine ⟨e1, e2, e3, ?_⟩
            simp only [bio_bound, if_pos hopen] at e4
            simp only [bio_bound]
            rw [if_neg (by simp : ¬ (([] : List (List Char)) ≠ []))]
            have : st.current_entity_start_char < (st.previous_token_end_char : Int) := hoP
            omega
          · have : e = close_entity full_text st := by simpa using he'
            subst this
            refine ⟨hs0, hsP, htxt, ?_⟩
            simp only [bio_bound]
            rw [if_neg (by simp : ¬ (([] : List (List Char)) ≠ []))]
            simp only [close_entity]
            omega
        · intro habs
          exact absurd rfl habs
    · have hclosed : st.current_entity_tokens = [] := by
        by_contra hne
        exact hopen hne
      rw [bio_step_no_open full_text token bio_label st r hB hclosed]
      obtain ⟨h1, h2, h3, h4⟩ := hinv
      refine ⟨rfl, h2, ?_, ?_⟩
      · intro e he
        obtain ⟨e1, e2, e3, e4⟩ := h3 e he
        refine ⟨e1, e2, e3, ?_⟩
        simp only [bio_bound, if_neg hopen] at e4
        simp only [bio_bound]
        rw [if_neg (by simp : ¬ (([] : List (List Char)) ≠ []))]
        omega
      · intro habs
        exact absurd rfl habs

lemma bio_go_output (full_text : List Char) :
    ∀ (items : List (List Char × List Char × Bool)) (st : BioState),
      (∀ it ∈ items, it.1 ≠ ([] : List Char)) → bio_inv full_text st →
      (∀ e ∈ bio_go full_text items st,
        0 ≤ e.start_char ∧ e.start_char < (e.end_char : Int)
          ∧ e.text = (full_text.take e.end_char).drop e.start_char.toNat)
      ∧ List.Pairwise (fun a b => (a.end_char : Int) ≤ b.start_char)
          (bio_go full_text items st)
  | [], st, _, hinv => by
    simp only [bio_go]
    by_cases hopen : st.current_entity_tokens ≠ []
    · rw [if_pos hopen]
      obtain ⟨⟨hs0, hsP, htxt⟩, hchain⟩ := closed_entity_facts full_text st hinv hopen
      obtain ⟨h1, h2, h3, h4⟩ := hinv
      constructor
      · intro e he
        rcases List.mem_append.1 he with he' | he'
        · obtain ⟨e1, e2, e3, _⟩ := h3 e he'
          exact ⟨e1, e2, e3⟩
        · have : e = close_entity full_text st := by simpa using he'
          subst this
          exact ⟨hs0, hsP, htxt⟩
      · rw [List.pairwise_append]
        exact ⟨h2, List.pairwise_singleton _ _,
          fun a ha b hb => by
            have : b = close_entity full_text st := by simpa using hb
            subst this
            exact hchain a ha⟩
    · rw [if_neg hopen]
      obtain ⟨h1, h2, h3, h4⟩ := hinv
      exact ⟨fun e he => ⟨(h3 e he).1, (h3 e he).2.1, (h3 e he).2.2.1⟩, h2⟩
  | (tok, lab, ws) :: rest, st, htoks, hinv => by
    cases hfind : str_find full_text tok (skip_whitespace full_text st.current_char_idx) with
    | none =>
      rw [bio_abort_on_missing_token full_text tok lab ws rest st hfind]
      exact ⟨fun e he => absurd he (List.not_mem_nil e), List.Pairwise.nil⟩
    | some r =>
      rw [bio_go_cons_found full_text tok lab ws rest st r hfind]
      have htok : tok ≠ ([] : List Char) :=
        htoks (tok, lab, ws) (List.mem_cons_self _ _)
      have hr : st.current_char_idx ≤ r :=
        Nat.le_trans (skip_whitespace_le full_text st.current_char_idx) (str_find_le hfind)
      exact bio_go_output full_text rest _
        (fun it hit => htoks it (List.mem_cons_of_mem _ hit))
        (bio_step_inv full_text tok lab st r htok hr hinv)

lemma zip3_mem_fst {α β γ : Type} :
    ∀ {as : List α} {bs : List β} {cs : List γ} {x : α × β × γ},
      x ∈ zip3 as bs cs → x.1 ∈ as
  | a :: as, b :: bs, c :: cs, x, hx => by
    simp only [zip3] at hx
    rcases List.mem_cons.1 hx with h | h
    · subst h
      exact List.mem_cons_self _ _
    · exact List.mem_cons_of_mem _ (zip3_mem_fst h)

lemma bio_init_inv (full_text : List Char) : bio_inv full_text bio_init := by
  refine ⟨rfl, List.Pairwise.nil, ?_, ?_⟩
  · intro e he
    exact absurd he (List.not_mem_nil e)
  · intro habs
    exact absurd rfl habs

/-- Claim C9: when all token strings are non-empty, every entity produced by
the BIO conversion has `start_char < end_char` and `text` equal to the
substring `full_text[start_char : end_char]`, and the output list is ordered
by `start_char` with pairwise non-overlapping half-open spans (each entity
ends at or before the next one starts). -/
theorem bio_conversion_output_invariants (tokens labels : List (List Char))
    (trailing_whitespace : List Bool) (full_text : List Char)
    (h : ∀ t ∈ tokens, t ≠ ([] : List Char)) :
    (∀ e ∈ convert_bio_to_offset_entities tokens labels trailing_whitespace full_text,
      0 ≤ e.start_char ∧ e.start_char < (e.end_char : Int)
        ∧ e.text = (full_text.take e.end_char).drop e.start_char.toNat)
    ∧ List.Pairwise (fun a b => (a.end_char : Int) ≤ b.start_char)
        (convert_bio_to_offset_entities tokens labels trailing_whitespace full_text)
    ∧ List.Pairwise (fun a b : GtEntity => a.start_char < b.start_char)
        (convert_bio_to_offset_entities tokens labels trailing_whitespace full_text) := by
  have hall : ∀ it ∈ zip3 tokens labels trailing_whitespace, it.1 ≠ ([] : List Char) :=
    fun it hit => h it.1 (zip3_mem_fst hit)
  obtain ⟨hent, hpair⟩ := bio_go_output full_text
    (zip3 tokens labels trailing_whitespace) bio_init hall (bio_init_inv full_text)
  refine ⟨hent, hpair, ?_⟩
  refine List.Pairwise.imp_of_mem ?_ hpair
  intro a b ha hb hab
  have h1 := (hent a ha).2.1
  omega

/-- Witness for C9 at the C4 example input (binder-free conjunct: the output
entities are pairwise ordered and non-overlapping). -/
theorem bio_conversion_output_invariants_witness :
    List.Pairwise (fun a b => (a.end_char : Int) ≤ b.start_char)
      (convert_bio_to_offset_entities
        [("John").data, ("Doe").data, ("works").data]
        [("B-PERSON").data, ("I-PERSON").data, ("O").data]
        [true, true, false] (("John Doe works").data)) :=
  (bio_conversion_output_invariants
    [("John").data, ("Doe").data, ("works").data]
    [("B-PERSON").data, ("I-PERSON").data, ("O").data]
    [true, true, false] (("John Doe works").data) (by decide)).2.1

/-! ### Evaluation matching (`evaluation/evaluation.py`, lines 38-124)

`evaluate_state` embeds the counting part of `evaluate_entity_detection`:
per element, each prediction is matched against the unconsumed ground-truth
entries of the same (remapped) label under the chosen strategy, then every
unconsumed ground-truth entry becomes a false negative.  Counters and the
per-label consumed sets are dictionaries, modelled as functions; `-1` is the
source's sentinel for `best_match_gt_idx` and `max_overlap`. -/

/-- Prediction and ground-truth entries as far as the matcher reads them
(`text`, `label`, `start_char`, `end_char`). -/
structure EvalEntity where
  text : List Char
  label : List Char
  start_char : Int
  end_char : Int
deriving DecidableEq

/-- Embeds `_calculate_overlap`: `max(0, min(pred_end, gt_end) -
max(pred_start, gt_start))`. -/
def calculate_overlap (pred_start pred_end gt_start gt_end : Int) : Int :=
  max 0 (min pred_end gt_end - max pred_start gt_start)

/-- The raw overlap length of a prediction/ground-truth pair. -/
def pred_gt_overlap (pred gt : EvalEntity) : Int :=
  calculate_overlap pred.start_char pred.end_char gt.start_char gt.end_char

/-- Embeds `label_map.get(label, label)`. -/
def lookup_default (label_map : List (List Char × List Char)) (label : List Char) : List Char :=
  match List.lookup label label_map with
  | some v => v
  | none => label

/-- The compound threshold condition of the overlap branch: `pred_len > 0
and overlap / pred_len >= threshold and gt_len > 0 and overlap / gt_len >=
threshold`. -/
def overlap_threshold_ok (overlap_threshold : ℚ) (pred gt : EvalEntity) : Prop :=
  0 < pred.end_char - pred.start_char
  ∧ ((pred_gt_overlap pred gt : Int) : ℚ)
      / (((pred.end_char - pred.start_char) : Int) : ℚ) ≥ overlap_threshold
  ∧ 0 < gt.end_char - gt.start_char
  ∧ ((pred_gt_overlap pred gt : Int) : ℚ)
      / (((gt.end_char - gt.start_char) : Int) : ℚ) ≥ overlap_threshold

instance (t : ℚ) (pred gt : EvalEntity) : Decidable (overlap_threshold_ok t pred gt) := by
  unfold overlap_threshold_ok
  infer_instance

/-- A ground-truth entry qualifies for a prediction under the overlap
strategy iff its remapped label equals the prediction's label and both
containment ratios meet the threshold. -/
def overlap_qualifies (overlap_threshold : ℚ) (label_map : List (List Char × List Char))
    (pred gt : EvalEntity) : Prop :=
  pred.label = lookup_default label_map gt.label
    ∧ overlap_threshold_ok overlap_threshold pred gt

instance (t : ℚ) (lm : List (List Char × List Char)) (pred gt : EvalEntity) :
    Decidable (overlap_qualifies t lm pred gt) := by
  unfold overlap_qualifies
  infer_instance

/-- Embeds the inner `for gt_idx, gt in enumerate(...)` loop: skip consumed
entries, require the remapped label to equal the prediction's, then apply
the strategy; `exact` stops at the first full triple match (`break`),
`overlap` keeps the qualifying entry of maximal raw overlap (strict
improvement, so the first of equal overlaps wins). -/
def match_loop (match_strategy : List Char) (overlap_threshold : ℚ)
    (label_map : List (List Char × List Char)) (elem_id : List Char)
    (pred : EvalEntity) (consumed : List (List Char × Nat)) :
    List (Nat × EvalEntity) → Int → Int → Int
  | [], best, _ => best
  | (gt_idx, gt) :: rest, best, max_overlap =>
    if (elem_id, gt_idx) ∈ consumed then
      match_loop match_strategy overlap_threshold label_map elem_id pred consumed
        rest best max_overlap
    else if pred.label = lookup_default label_map gt.label then
      if match_strategy = ("exact").data then
        if pred.text = gt.text ∧ pred.start_char = gt.start_char
            ∧ pred.end_char = gt.end_char then
          (gt_idx : Int)
        else
          match_loop match_strategy overlap_threshold label_map elem_id pred consumed
            rest best max_overlap
      else if match_strategy = ("overlap").data then
        if overlap_threshold_ok overlap_threshold pred gt then
          if max_overlap < pred_gt_overlap pred gt then
            match_loop match_strategy overlap_threshold label_map elem_id pred consumed
              rest (gt_idx : Int) (pred_gt_overlap pred gt)
          else
            match_loop match_strategy overlap_threshold label_map elem_id pred consumed
              rest best max_overlap
        else
          match_loop match_strategy overlap_threshold label_map elem_id pred consumed
            rest best max_overlap
      else
        match_loop match_strategy overlap_threshold label_map elem_id pred consumed
          rest best max_overlap
    else
      match_loop match_strategy overlap_threshold label_map elem_id pred consumed
        rest best max_overlap

/-- The matcher's mutable state: the three per-label counters, the label
set, and the per-label sets of matched prediction/ground-truth ids. -/
structure EvalState where
  true_positives : List Char → Nat
  false_positives : List Char → Nat
  false_negatives : List Char → Nat
  unique_labels : List (List Char)
  pred_matches : List (List Char × List Char × Nat)
  gt_matches : List Char → List (List Char × Nat)

/-- `counter[label] += 1` on a defaultdict of ints. -/
def bump (f : List Char → Nat) (label : List Char) : List Char → Nat :=
  fun x => if x = label then f x + 1 else f x

/-- `gt_matches.setdefault(label, set()).add(gt_id)`. -/
def add_gt_match (f : List Char → List (List Char × Nat)) (label : List Char)
    (gt_id : List Char × Nat) : List Char → List (List Char × Nat) :=
  fun x => if x = label then gt_id :: f x else f x

/-- Embeds the per-prediction body: run the inner loop, then credit a true
positive (consuming the chosen ground-truth id) or a false positive. -/
def process_pred (match_strategy : List Char) (overlap_threshold : ℚ)
    (label_map : List (List Char × List Char)) (elem_id : List Char)
    (st : EvalState) (p_idx : Nat) (pred : EvalEntity) (gts : List EvalEntity) : EvalState :=
  let best := match_loop match_strategy overlap_threshold label_map elem_id pred
    (st.gt_matches pred.label) gts.enum (-1) (-1)
  if best ≠ -1 then
    if (elem_id, best.toNat) ∉ st.gt_matches pred.label then
      { st with
        true_positives := bump st.true_positives pred.label,
        pred_matches := (pred.label, (elem_id, p_idx)) :: st.pred_matches,
        gt_matches := add_gt_match st.gt_matches pred.label (elem_id, best.toNat) }
    else
      { st with false_positives := bump st.false_positives pred.label }
  else
    { st with false_positives := bump st.false_positives pred.label }

/-- Embeds the `unique_labels.update(...)` lines (set semantics as a
duplicate-free list). -/
def update_unique_labels (label_map : List (List Char × List Char))
    (st : EvalState) (preds gts : List EvalEntity) : EvalState :=
  { st with unique_labels :=
      (gts.foldl
        (fun acc g => if lookup_default label_map g.label ∈ acc then acc
          else acc ++ [lookup_default label_map g.label])
        (preds.foldl
          (fun acc p => if p.label ∈ acc then acc else acc ++ [p.label])
          st.unique_labels)) }

/-- Embeds the per-element body: collect labels, match every prediction in
order, then count each unconsumed ground-truth entry as a false negative
under its remapped label. -/
def process_element (match_strategy : List Char) (overlap_threshold : ℚ)
    (label_map : List (List Char × List Char))
    (ground_truth : List (List Char × List EvalEntity))
    (st : EvalState) (elem : List Char × List EvalEntity) : EvalState :=
  let gts := match List.lookup elem.1 ground_truth with
    | some l => l
    | none => []
  let st1 := update_unique_labels label_map st elem.2 gts
  let st2 := (elem.2.enum).foldl
    (fun s pe => process_pred match_strategy overlap_threshold label_map elem.1
      s pe.1 pe.2 gts) st1
  (gts.enum).foldl
    (fun s ge =>
      if (elem.1, ge.1) ∈ s.gt_matches (lookup_default label_map ge.2.label) then s
      else { s with false_negatives :=
        (bump s.false_negatives (lookup_default label_map ge.2.label)) }) st2

/-- The matcher's initial state (all counters zero, nothing consumed). -/
def eval_init : EvalState :=
  { true_positives := fun _ => 0, false_positives := fun _ => 0,
    false_negatives := fun _ => 0, unique_labels := [],
    pred_matches := [], gt_matches := fun _ => [] }

/-- Embeds the counting phase of `evaluate_entity_detection` over a list of
`(element_id, predictions)` pairs and a ground-truth dictionary. -/
def evaluate_state (elements : List (List Char × List EvalEntity))
    (ground_truth : List (List Char × List EvalEntity))
    (label_map : List (List Char × List Char))
    (match_strategy : List Char) (overlap_threshold : ℚ) : EvalState :=
  elements.foldl
    (process_element match_strategy overlap_threshold label_map ground_truth) eval_init

/-! ### C3: characterisation of overlap matching -/

/-- A ground-truth entry (with its enumeration index) is available to a
prediction: not yet consumed for the prediction's label, and qualifying
under the overlap rule. -/
def unconsumed_qualifies (overlap_threshold : ℚ) (label_map : List (List Char × List Char))
    (elem_id : List Char) (consumed : List (List Char × Nat))
    (pred : EvalEntity) (ig : Nat × EvalEntity) : Prop :=
  (elem_id, ig.1) ∉ consumed ∧ overlap_qualifies overlap_threshold label_map pred ig.2

instance (t : ℚ) (lm : List (List Char × List Char)) (eid : List Char)
    (consumed : List (List Char × Nat)) (pred : EvalEntity) (ig : Nat × EvalEntity) :
    Decidable (unconsumed_qualifies t lm eid consumed pred ig) := by
  unfold unconsumed_qualifies
  infer_instance

lemma calculate_overlap_nonneg (a b c d : Int) : 0 ≤ calculate_overlap a b c d :=
  le_max_left _ _

lemma match_loop_cons_skip (ms : List Char) (t : ℚ) (lm : List (List Char × List Char))
    (elem_id : List Char) (pred : EvalEntity) (consumed : List (List Char × Nat))
    (i : Nat) (g : EvalEntity) (rest : List (Nat × EvalEntity)) (best mo : Int)
    (h : (elem_id, i) ∈ consumed) :
    match_loop ms t lm elem_id pred consumed ((i, g) :: rest) best mo
      = match_loop ms t lm elem_id pred consumed rest best mo := by
  simp only [match_loop]
  rw [if_pos h]

lemma match_loop_cons_nolabel (ms : List Char) (t : ℚ) (lm : List (List Char × List Char))
    (elem_id : List Char) (pred : EvalEntity) (consumed : List (List Char × Nat))
    (i : Nat) (g : EvalEntity) (rest : List (Nat × EvalEntity)) (best mo : Int)
    (h1 : (elem_id, i) ∉ consumed) (h2 : pred.label ≠ lookup_default lm g.label) :
    match_loop ms t lm elem_id pred consumed ((i, g) :: rest) best mo
      = match_loop ms t lm elem_id pred consumed rest best mo := by
  simp only [match_loop]
  rw [if_neg h1, if_neg h2]

lemma match_loop_overlap_noqual (t : ℚ) (lm : List (List Char × List Char))
    (elem_id : List Char) (pred : EvalEntity) (consumed : List (List Char × Nat))
    (i : Nat) (g : EvalEntity) (rest : List (Nat × EvalEntity)) (best mo : Int)
    (h1 : (elem_id, i) ∉ consumed) (h2 : pred.label = lookup_default lm g.label)
    (h3 : ¬ overlap_threshold_ok t pred g) :
    match_loop (("overlap").data) t lm elem_id pred consumed ((i, g) :: rest) best mo
      = match_loop (("overlap").data) t lm elem_id pred consumed rest best mo := by
  simp only [match_loop]
  rw [if_neg h1, if_pos h2, if_pos trivial, if_neg h3]
  rw [if_neg (by decide : ¬ (("overlap").data = ("exact").data))]

lemma match_loop_overlap_qual_gt (t : ℚ) (lm : List (List Char × List Char))
    (elem_id : List Char) (pred : EvalEntity) (consumed : List (List Char × Nat))
    (i : Nat) (g : EvalEntity) (rest : List (Nat × EvalEntity)) (best mo : Int)
    (h1 : (elem_id, i) ∉ consumed) (h2 : pred.label = lookup_default lm g.label)
    (h3 : overlap_threshold_ok t pred g) (h4 : mo < pred_gt_overlap pred g) :
    match_loop (("overlap").data) t lm elem_id pred consumed ((i, g) :: rest) best mo
      = match_loop (("overlap").data) t lm elem_id pred consumed rest
          (i : Int) (pred_gt_overlap pred g) := by
  simp only [match_loop]
  rw [if_neg h1, if_pos h2, if_pos trivial, if_pos h3, if_pos h4]
  rw [if_neg (by decide : ¬ (("overlap").data = ("exact").data))]

lemma match_loop_overlap_qual_le (t : ℚ) (lm : List (List Char × List Char))
    (elem_id : List Char) (pred : EvalEntity) (consumed : List (List Char × Nat))
    (i : Nat) (g : EvalEntity) (rest : List (Nat × EvalEntity)) (best mo : Int)
    (h1 : (elem_id, i) ∉ consumed) (h2 : pred.label = lookup_default lm g.label)
    (h3 : overlap_threshold_ok t pred g) (h4 : ¬ mo < pred_gt_overlap pred g) :
    match_loop (("overlap").data) t lm elem_id pred consumed ((i, g) :: rest) best mo
      = match_loop (("overlap").data) t lm elem_id pred consumed rest best mo := by
  simp only [match_loop]
  rw [if_neg h1, if_pos h2, if_pos trivial, if_pos h3, if_neg h4]
  rw [if_neg (by decide : ¬ (("overlap").data = ("exact").data))]

lemma match_loop_overlap_spec (t : ℚ) (lm : List (List Char × List Char))
    (elem_id : List Char) (pred : EvalEntity) (consumed : List (List Char × Nat)) :
    ∀ (L : List (Nat × EvalEntity)) (best mo : Int),
      (match_loop (("overlap").data) t lm elem_id pred consumed L best mo = best
        ∧ ∀ ig ∈ L, ¬ (unconsumed_qualifies t lm elem_id consumed pred ig
            ∧ mo < pred_gt_overlap pred ig.2))
      ∨ (∃ ig ∈ L, unconsumed_qualifies t lm elem_id consumed pred ig
          ∧ mo < pred_gt_overlap pred ig.2
          ∧ match_loop (("overlap").data) t lm elem_id pred consumed L best mo = (ig.1 : Int)
          ∧ ∀ kg ∈ L, unconsumed_qualifies t lm elem_id consumed pred kg
              → pred_gt_overlap pred kg.2 ≤ pred_gt_overlap pred ig.2)
  | [], best, mo => Or.inl ⟨rfl, by simp⟩
  | (i, g) :: rest, best, mo => by
    by_cases h1 : (elem_id, i) ∈ consumed
    · rw [match_loop_cons_skip (("overlap").data) t lm elem_id pred consumed i g rest best mo h1]
      rcases match_loop_overlap_spec t lm elem_id pred consumed rest best mo with
        ⟨hl, hn⟩ | ⟨ig, hmem, huq, hov, hl, hmax⟩
      · left
        refine ⟨hl, ?_⟩
        intro ig hig
        rcases List.mem_cons.1 hig with hig' | hig'
        · subst hig'
          exact fun hc => hc.1.1 h1
        · exact hn ig hig'
      · right
        refine ⟨ig, List.mem_cons_of_mem _ hmem, huq, hov, hl, ?_⟩
        intro kg hkg hkq
        rcases List.mem_cons.1 hkg with hk | hk
        · subst hk
          exact absurd h1 hkq.1
        · exact hmax kg hk hkq
    · by_cases h2 : pred.label = lookup_default lm g.label
      · by_cases h3 : overlap_threshold_ok t pred g
        · by_cases h4 : mo < pred_gt_overlap pred g
          · rw [match_loop_overlap_qual_gt t lm elem_id pred consumed i g rest best mo h1 h2 h3 h4]
            rcases match_loop_overlap_spec t lm elem_id pred consumed rest
                (i : Int) (pred_gt_overlap pred g) with
              ⟨hl, hn⟩ | ⟨ig, hmem, huq, hov, hl, hmax⟩
            · right
              refine ⟨(i, g), List.mem_cons_self _ _, ⟨h1, h2, h3⟩, h4, hl, ?_⟩
              intro kg hkg hkq
              rcases List.mem_cons.1 hkg with hk | hk
              · subst hk
                exact le_refl _
              · have hnk := hn kg hk
                dsimp only
                by_contra hlt
                exact hnk ⟨hkq, by omega⟩
            · right
              refine ⟨ig, List.mem_cons_of_mem _ hmem, huq, by omega, hl, ?_⟩
              intro kg hkg hkq
              rcases List.mem_cons.1 hkg with hk | hk
              · subst hk
                dsimp only
                omega
              · exact hmax kg hk hkq
          · rw [match_loop_overlap_qual_le t lm elem_id pred consumed i g rest best mo h1 h2 h3 h4]
            rcases match_loop_overlap_spec t lm elem_id pred consumed rest best mo with
              ⟨hl, hn⟩ | ⟨ig, hmem, huq, hov, hl, hmax⟩
            · left
              refine ⟨hl, ?_⟩
              intro ig hig
              rcases List.mem_cons.1 hig with hig' | hig'
              · subst hig'
                exact fun hc => h4 hc.2
              · exact hn ig hig'
            · right
              refine ⟨ig, List.mem_cons_of_mem _ hmem, huq, hov, hl, ?_⟩
              intro kg hkg hkq
              rcases List.mem_cons.1 hkg with hk | hk
              · subst hk
                dsimp only
                omega
              · exact hmax kg hk hkq
        · rw [match_loop_overlap_noqual t lm elem_id pred consumed i g rest best mo h1 h2 h3]
          rcases match_loop_overlap_spec t lm elem_id pred consumed rest best mo with
            ⟨hl, hn⟩ | ⟨ig, hmem, huq, hov, hl, hmax⟩
          · left
            refine ⟨hl, ?_⟩
            intro ig hig
            rcases List.mem_cons.1 hig with hig' | hig'
            · subst hig'
              exact fun hc => h3 hc.1.2.2
            · exact hn ig hig'
          · right
            refine ⟨ig, List.mem_cons_of_mem _ hmem, huq, hov, hl, ?_⟩
            intro kg hkg hkq
            rcases List.mem_cons.1 hkg with hk | hk
            · subst hk
              exact absurd hkq.2.2 h3
            · exact hmax kg hk hkq
      · rw [match_loop_cons_nolabel (("overlap").data) t lm elem_id pred consumed i g rest best mo h1 h2]
        rcases match_loop_overlap_spec t lm elem_id pred consumed rest best mo with
          ⟨hl, hn⟩ | ⟨ig, hmem, huq, hov, hl, hmax⟩
        · left
          refine ⟨hl, ?_⟩
          intro ig hig
          rcases List.mem_cons.1 hig with hig' | hig'
          · subst hig'
            exact fun hc => h2 hc.1.2.1
          · exact hn ig hig'
        · right
          refine ⟨ig, List.mem_cons_of_mem _ hmem, huq, hov, hl, ?_⟩
          intro kg hkg hkq
          rcases List.mem_cons.1 hkg with hk | hk
          · subst hk
            exact absurd hkq.2.1 h2
          · exact hmax kg hk hkq

lemma match_loop_overlap_found (t : ℚ) (lm : List (List Char × List Char))
    (elem_id : List Char) (pred : EvalEntity) (consumed : List (List Char × Nat))
    (L : List (Nat × EvalEntity))
    (h : ∃ ig ∈ L, unconsumed_qualifies t lm elem_id consumed pred ig) :
    ∃ ig ∈ L, unconsumed_qualifies t lm elem_id consumed pred ig
      ∧ match_loop (("overlap").data) t lm elem_id pred consumed L (-1) (-1) = (ig.1 : Int)
      ∧ ∀ kg ∈ L, unconsumed_qualifies t lm elem_id consumed pred kg
          → pred_gt_overlap pred kg.2 ≤ pred_gt_overlap pred ig.2 := by
  rcases match_loop_overlap_spec t lm elem_id pred consumed L (-1) (-1) with
    ⟨_, hn⟩ | ⟨ig, hmem, huq, _, hl, hmax⟩
  · obtain ⟨ig, hmem, huq⟩ := h
    have hge : (0 : Int) ≤ pred_gt_overlap pred ig.2 := calculate_overlap_nonneg _ _ _ _
    exact absurd ⟨huq, by omega⟩ (hn ig hmem)
  · exact ⟨ig, hmem, huq, hl, hmax⟩

lemma match_loop_overlap_not_found (t : ℚ) (lm : List (List Char × List Char))
    (elem_id : List Char) (pred : EvalEntity) (consumed : List (List Char × Nat))
    (L : List (Nat × EvalEntity))
    (h : ¬ ∃ ig ∈ L, unconsumed_qualifies t lm elem_id consumed pred ig) :
    match_loop (("overlap").data) t lm elem_id pred consumed L (-1) (-1) = -1 := by
  rcases match_loop_overlap_spec t lm elem_id pred consumed L (-1) (-1) with
    ⟨hl, _⟩ | ⟨ig, hmem, huq, _, _, _⟩
  · exact hl
  · exact absurd ⟨ig, hmem, huq⟩ h

lemma process_pred_of_found (t : ℚ) (lm : List (List Char × List Char))
    (elem_id : List Char) (st : EvalState) (p_idx : Nat) (pred : EvalEntity)
    (gts : List EvalEntity)
    (h : ∃ ig ∈ gts.enum,
      unconsumed_qualifies t lm elem_id (st.gt_matches pred.label) pred ig) :
    ∃ ig ∈ gts.enum,
      unconsumed_qualifies t lm elem_id (st.gt_matches pred.label) pred ig
      ∧ process_pred (("overlap").data) t lm elem_id st p_idx pred gts
          = { st with
              true_positives := bump st.true_positives pred.label,
              pred_matches := (pred.label, (elem_id, p_idx)) :: st.pred_matches,
              gt_matches := add_gt_match st.gt_matches pred.label (elem_id, ig.1) }
      ∧ ∀ kg ∈ gts.enum,
          unconsumed_qualifies t lm elem_id (st.gt_matches pred.label) pred kg
            → pred_gt_overlap pred kg.2 ≤ pred_gt_overlap pred ig.2 := by
  obtain ⟨ig, hmem, huq, hloop, hmax⟩ :=
    match_loop_overlap_found t lm elem_id pred (st.gt_matches pred.label) gts.enum h
  refine ⟨ig, hmem, huq, ?_, hmax⟩
  simp only [process_pred, hloop]
  rw [if_pos (by omega : ((ig.1 : Nat) : Int) ≠ -1)]
  rw [if_pos (by simpa using huq.1 :
    (elem_id, ((ig.1 : Nat) : Int).toNat) ∉ st.gt_matches pred.label)]
  rw [Int.toNat_natCast]

lemma process_pred_of_not_found (t : ℚ) (lm : List (List Char × List Char))
    (elem_id : List Char) (st : EvalState) (p_idx : Nat) (pred : EvalEntity)
    (gts : List EvalEntity)
    (h : ¬ ∃ ig ∈ gts.enum,
      unconsumed_qualifies t lm elem_id (st.gt_matches pred.label) pred ig) :
    process_pred (("overlap").data) t lm elem_id st p_idx pred gts
      = { st with false_positives := bump st.false_positives pred.label } := by
  have hloop := match_loop_overlap_not_found t lm elem_id pred (st.gt_matches pred.label)
    gts.enum h
  simp only [process_pred, hloop]
  rw [if_neg (by simp : ¬ ((-1 : Int) ≠ -1))]

lemma bump_same (f : List Char → Nat) (l : List Char) : bump f l l = f l + 1 := by
  unfold bump
  rw [if_pos rfl]

/-- The spec's worked example prediction: span `[0,10)`, label `ADDRESS`. -/
def example_prediction : EvalEntity :=
  { text := ("0123456789").data, label := ("ADDRESS").data, start_char := 0, end_char := 10 }

/-- The spec's worked example ground truth: span `[2,9)`, label `ADDRESS`. -/
def example_ground_truth : EvalEntity :=
  { text := ("2345678").data, label := ("ADDRESS").data, start_char := 2, end_char := 9 }

lemma example_overlap_eq : pred_gt_overlap example_prediction example_ground_truth = 7 := by
  decide

lemma example_threshold_half :
    overlap_threshold_ok (1/2) example_prediction example_ground_truth := by
  unfold overlap_threshold_ok
  rw [example_overlap_eq]
  refine ⟨by decide, ?_, by decide, ?_⟩
  · show ((7 : Int) : ℚ) / ((((10 : Int) - 0) : Int) : ℚ) ≥ 1/2
    norm_num
  · show ((7 : Int) : ℚ) / ((((9 : Int) - 2) : Int) : ℚ) ≥ 1/2
    norm_num

lemma example_threshold_ninety :
    ¬ overlap_threshold_ok (9/10) example_prediction example_ground_truth := by
  unfold overlap_threshold_ok
  rw [example_overlap_eq]
  intro h
  have h2 : ((7 : Int) : ℚ) / ((((10 : Int) - 0) : Int) : ℚ) ≥ 9/10 := h.2.1
  norm_num at h2

lemma eval_example_counts_half :
    (evaluate_state [((("elem_0").data), [example_prediction])]
        [((("elem_0").data), [example_ground_truth])] [] (("overlap").data)
        (1/2)).true_positives (("ADDRESS").data) = 1
    ∧ (evaluate_state [((("elem_0").data), [example_prediction])]
        [((("elem_0").data), [example_ground_truth])] [] (("overlap").data)
        (1/2)).false_positives (("ADDRESS").data) = 0
    ∧ (evaluate_state [((("elem_0").data), [example_prediction])]
        [((("elem_0").data), [example_ground_truth])] [] (("overlap").data)
        (1/2)).false_negatives (("ADDRESS").data) = 0 := by
  have hex : ∃ ig ∈ [example_ground_truth].enum,
      unconsumed_qualifies (1/2) [] (("elem_0").data)
        ((update_unique_labels [] eval_init [example_prediction]
          [example_ground_truth]).gt_matches example_prediction.label)
        example_prediction ig := by
    refine ⟨(0, example_ground_truth), by decide, ?_, rfl, example_threshold_half⟩
    show ((("elem_0").data), 0) ∉ ([] : List (List Char × Nat))
    exact List.not_mem_nil _
  obtain ⟨ig, hmem, _, heq, _⟩ := process_pred_of_found (1/2) [] (("elem_0").data)
    (update_unique_labels [] eval_init [example_prediction] [example_ground_truth])
    0 example_prediction [example_ground_truth] hex
  have hig : ig = (0, example_ground_truth) := by simpa using hmem
  subst hig
  have hev : evaluate_state [((("elem_0").data), [example_prediction])]
      [((("elem_0").data), [example_ground_truth])] [] (("overlap").data) (1/2)
      = (([example_ground_truth].enum).foldl
          (fun s ge =>
            if ((("elem_0").data), ge.1) ∈ s.gt_matches (lookup_default [] ge.2.label) then s
            else { s with false_negatives :=
              (bump s.false_negatives (lookup_default [] ge.2.label)) })
          (process_pred (("overlap").data) (1/2) [] (("elem_0").data)
            (update_unique_labels [] eval_init [example_prediction] [example_ground_truth])
            0 example_prediction [example_ground_truth])) := rfl
  rw [hev, heq]
  exact ⟨rfl, rfl, rfl⟩

lemma eval_example_counts_ninety :
    (evaluate_state [((("elem_0").data), [example_prediction])]
        [((("elem_0").data), [example_ground_truth])] [] (("overlap").data)
        (9/10)).true_positives (("ADDRESS").data) = 0
    ∧ (evaluate_state [((("elem_0").data), [example_prediction])]
        [((("elem_0").data), [example_ground_truth])] [] (("overlap").data)
        (9/10)).false_positives (("ADDRESS").data) = 1
    ∧ (evaluate_state [((("elem_0").data), [example_prediction])]
        [((("elem_0").data), [example_ground_truth])] [] (("overlap").data)
        (9/10)).false_negatives (("ADDRESS").data) = 1 := by
  have hnex : ¬ ∃ ig ∈ [example_ground_truth].enum,
      unconsumed_qualifies (9/10) [] (("elem_0").data)
        ((update_unique_labels [] eval_init [example_prediction]
          [example_ground_truth]).gt_matches example_prediction.label)
        example_prediction ig := by
    rintro ⟨ig, hmem, huq⟩
    have hig : ig = (0, example_ground_truth) := by simpa using hmem
    subst hig
    exact example_threshold_ninety huq.2.2
  have heq := process_pred_of_not_found (9/10) [] (("elem_0").data)
    (update_unique_labels [] eval_init [example_prediction] [example_ground_truth])
    0 example_prediction [example_ground_truth] hnex
  have hev : evaluate_state [((("elem_0").data), [example_prediction])]
      [((("elem_0").data), [example_ground_truth])] [] (("overlap").data) (9/10)
      = (([example_ground_truth].enum).foldl
          (fun s ge =>
            if ((("elem_0").data), ge.1) ∈ s.gt_matches (lookup_default [] ge.2.label) then s
            else { s with false_negatives :=
              (bump s.false_negatives (lookup_default [] ge.2.label)) })
          (process_pred (("overlap").data) (9/10) [] (("elem_0").data)
            (update_unique_labels [] eval_init [example_prediction] [example_ground_truth])
            0 example_prediction [example_ground_truth])) := rfl
  rw [hev, heq]
  exact ⟨rfl, rfl, rfl⟩

/-- Claim C3: under the overlap strategy with threshold `t`, a prediction is
credited as a true positive iff some unconsumed same-label ground-truth
entry meets `overlap/pred_len ≥ t` and `overlap/gt_len ≥ t` (with the
positive-length guards the source places before the divisions); the entry
consumed is one of greatest raw overlap among the qualifying ones; with no
qualifying entry the prediction is a false positive.  On the worked example
(prediction `[0,10)` vs ground truth `[2,9)`, label `ADDRESS`): at threshold
`0.5` the pair matches (TP=1, FP=0, FN=0), at `0.9` it fails (FP=1, FN=1). -/
theorem overlap_matching_characterisation :
    (∀ (t : ℚ) (lm : List (List Char × List Char)) (elem_id : List Char)
        (st : EvalState) (p_idx : Nat) (pred : EvalEntity) (gts : List EvalEntity),
      (((process_pred (("overlap").data) t lm elem_id st p_idx pred gts).true_positives
            pred.label = st.true_positives pred.label + 1
          ∧ (process_pred (("overlap").data) t lm elem_id st p_idx pred gts).false_positives
            pred.label = st.false_positives pred.label)
        ↔ ∃ ig ∈ gts.enum,
            unconsumed_qualifies t lm elem_id (st.gt_matches pred.label) pred ig)
      ∧ ((¬ ∃ ig ∈ gts.enum,
            unconsumed_qualifies t lm elem_id (st.gt_matches pred.label) pred ig) →
          (process_pred (("overlap").data) t lm elem_id st p_idx pred gts).false_positives
            pred.label = st.false_positives pred.label + 1
          ∧ (process_pred (("overlap").data) t lm elem_id st p_idx pred gts).true_positives
            pred.label = st.true_positives pred.label)
      ∧ ((∃ ig ∈ gts.enum,
            unconsumed_qualifies t lm elem_id (st.gt_matches pred.label) pred ig) →
          ∃ ig ∈ gts.enum,
            unconsumed_qualifies t lm elem_id (st.gt_matches pred.label) pred ig
            ∧ (process_pred (("overlap").data) t lm elem_id st p_idx pred gts).gt_matches
                pred.label = (elem_id, ig.1) :: st.gt_matches pred.label
            ∧ ∀ kg ∈ gts.enum,
                unconsumed_qualifies t lm elem_id (st.gt_matches pred.label) pred kg
                  → pred_gt_overlap pred kg.2 ≤ pred_gt_overlap pred ig.2))
    ∧ ((evaluate_state [((("elem_0").data), [example_prediction])]
          [((("elem_0").data), [example_ground_truth])] [] (("overlap").data)
          (1/2)).true_positives (("ADDRESS").data) = 1
        ∧ (evaluate_state [((("elem_0").data), [example_prediction])]
          [((("elem_0").data), [example_ground_truth])] [] (("overlap").data)
          (1/2)).false_positives (("ADDRESS").data) = 0
        ∧ (evaluate_state [((("elem_0").data), [example_prediction])]
          [((("elem_0").data), [example_ground_truth])] [] (("overlap").data)
          (1/2)).false_negatives (("ADDRESS").data) = 0)
    ∧ ((evaluate_state [((("elem_0").data), [example_prediction])]
          [((("elem_0").data), [example_ground_truth])] [] (("overlap").data)
          (9/10)).true_positives (("ADDRESS").data) = 0
        ∧ (evaluate_state [((("elem_0").data), [example_prediction])]
          [((("elem_0").data), [example_ground_truth])] [] (("overlap").data)
          (9/10)).false_positives (("ADDRESS").data) = 1
        ∧ (evaluate_state [((("elem_0").data), [example_prediction])]
          [((("elem_0").data), [example_ground_truth])] [] (("overlap").data)
          (9/10)).false_negatives (("ADDRESS").data) = 1) := by
  refine ⟨?_, eval_example_counts_half, eval_example_counts_ninety⟩
  intro t lm elem_id st p_idx pred gts
  refine ⟨⟨?_, ?_⟩, ?_, ?_⟩
  · intro hcnt
    by_contra hnex
    have heq := process_pred_of_not_found t lm elem_id st p_idx pred gts hnex
    rw [heq] at hcnt
    have h1 : st.true_positives pred.label = st.true_positives pred.label + 1 := hcnt.1
    omega
  · intro hex
    obtain ⟨ig, hmem, huq, heq, hmax⟩ :=
      process_pred_of_found t lm elem_id st p_idx pred gts hex
    rw [heq]
    exact ⟨bump_same st.true_positives pred.label, rfl⟩
  · intro hnex
    rw [process_pred_of_not_found t lm elem_id st p_idx pred gts hnex]
    exact ⟨bump_same st.false_positives pred.label, rfl⟩
  · intro hex
    obtain ⟨ig, hmem, huq, heq, hmax⟩ :=
      process_pred_of_found t lm elem_id st p_idx pred gts hex
    refine ⟨ig, hmem, huq, ?_, hmax⟩
    rw [heq]
    show add_gt_match st.gt_matches pred.label (elem_id, ig.1) pred.label
      = (elem_id, ig.1) :: st.gt_matches pred.label
    unfold add_gt_match
    rw [if_pos rfl]

/-- Witness for C3: at threshold `0.9` no ground-truth entry qualifies for
the example prediction, so the false-positive counter is incremented and the
true-positive counter is untouched. -/
theorem overlap_matching_characterisation_witness :
    (process_pred (("overlap").data) (9/10) [] (("elem_0").data) eval_init 0
        example_prediction [example_ground_truth]).false_positives
        example_prediction.label
      = eval_init.false_positives example_prediction.label + 1
    ∧ (process_pred (("overlap").data) (9/10) [] (("elem_0").data) eval_init 0
        example_prediction [example_ground_truth]).true_positives
        example_prediction.label
      = eval_init.true_positives example_prediction.label :=
  ((overlap_matching_characterisation.1 (9/10) [] (("elem_0").data) eval_init 0
      example_prediction [example_ground_truth]).2.1)
    (by
      rintro ⟨ig, hmem, huq⟩
      have hig : ig = (0, example_ground_truth) := by simpa using hmem
      subst hig
      exact example_threshold_ninety huq.2.2)

/-! ### Cross-document aggregation (`scripts/run_evaluation.py`, lines 112-138)

`run_kaggle_evaluation` only keeps each document's per-class
`{precision, recall, f1, support}` and reconstructs counts from them:
`tp = support*recall`, `fp = tp/precision - tp` when `precision > 0` else
`support*(1-recall)`, `fn = support - tp`; the reconstructions are summed
per label over all documents into `defaultdict` accumulators (modelled as
functions plus the accumulated label set), and the final global metrics are
recomputed from the summed values. -/

/-- One per-class metrics dict `{precision, recall, f1, support}`. -/
structure LabelMetrics where
  precision : ℚ
  «recall» : ℚ
  f1 : ℚ
  support : ℚ
deriving DecidableEq

/-- `tp = metrics['support'] * metrics['recall']`. -/
def derived_tp (m : LabelMetrics) : ℚ := m.support * m.«recall»

/-- `fp = (tp / precision) - tp if precision > 0 else support * (1 - recall)`. -/
def derived_fp (m : LabelMetrics) : ℚ :=
  if m.precision > 0 then derived_tp m / m.precision - derived_tp m
  else m.support * (1 - m.«recall»)

/-- `fn = support - tp`. -/
def derived_fn (m : LabelMetrics) : ℚ := m.support - derived_tp m

/-- The aggregation accumulators: `agg_tp`, `agg_fp`, `agg_fn` (defaultdicts
of rationals) and the set of labels seen (`all_labels`). -/
structure AggState where
  agg_tp : List Char → ℚ
  agg_fp : List Char → ℚ
  agg_fn : List Char → ℚ
  all_labels : List (List Char)

/-- `accumulator[label] += v`. -/
def upd (f : List Char → ℚ) (label : List Char) (v : ℚ) : List Char → ℚ :=
  fun x => if x = label then f x + v else f x

/-- One iteration of `for label, metrics in eval_results['per_class'].items()`. -/
def agg_step (st : AggState) (entry : List Char × LabelMetrics) : AggState :=
  { agg_tp := upd st.agg_tp entry.1 (derived_tp entry.2),
    agg_fp := upd st.agg_fp entry.1 (derived_fp entry.2),
    agg_fn := upd st.agg_fn entry.1 (derived_fn entry.2),
    all_labels :=
      if entry.1 ∈ st.all_labels then st.all_labels else st.all_labels ++ [entry.1] }

/-- Empty accumulators. -/
def agg_init : AggState :=
  { agg_tp := fun _ => 0, agg_fp := fun _ => 0, agg_fn := fun _ => 0, all_labels := [] }

/-- The document loop of `run_kaggle_evaluation`, restricted to its
aggregation effect: each document contributes its per-class metrics list. -/
def aggregate_documents (docs : List (List (List Char × LabelMetrics))) : AggState :=
  docs.foldl (fun st doc => doc.foldl agg_step st) agg_init

/-- `sum(agg_tp.values())` — the label set carries exactly the keys ever
written. -/
def total_tp (st : AggState) : ℚ := (st.all_labels.map st.agg_tp).sum

/-- `sum(agg_fp.values())`. -/
def total_fp (st : AggState) : ℚ := (st.all_labels.map st.agg_fp).sum

/-- `sum(agg_fn.values())`. -/
def total_fn (st : AggState) : ℚ := (st.all_labels.map st.agg_fn).sum

/-- `tp / (tp + fp) if (tp + fp) > 0 else 0`. -/
def metric_precision (tp fp : ℚ) : ℚ := if tp + fp > 0 then tp / (tp + fp) else 0

/-- `tp / (tp + fn) if (tp + fn) > 0 else 0`. -/
def metric_recall (tp fn : ℚ) : ℚ := if tp + fn > 0 then tp / (tp + fn) else 0

/-- `2*(p*r)/(p+r) if (p+r) > 0 else 0`. -/
def metric_f1 (p r : ℚ) : ℚ := if p + r > 0 then 2 * (p * r) / (p + r) else 0

/-- The `final_metrics['overall']` dict. -/
def final_overall (st : AggState) : LabelMetrics :=
  { precision := metric_precision (total_tp st) (total_fp st),
    «recall» := metric_recall (total_tp st) (total_fn st),
    f1 := metric_f1 (metric_precision (total_tp st) (total_fp st))
      (metric_recall (total_tp st) (total_fn st)),
    support := total_tp st + total_fn st }

/-- The `final_metrics['per_class'][label]` dict. -/
def final_per_class (st : AggState) (label : List Char) : LabelMetrics :=
  { precision := metric_precision (st.agg_tp label) (st.agg_fp label),
    «recall» := metric_recall (st.agg_tp label) (st.agg_fn label),
    f1 := metric_f1 (metric_precision (st.agg_tp label) (st.agg_fp label))
      (metric_recall (st.agg_tp label) (st.agg_fn label)),
    support := st.agg_tp label + st.agg_fn label }

/-- Modelled from the spec: the per-label closed-form sum — for label `L`,
the sum over all documents of the reconstruction `g` applied to every
per-class entry of that document carrying label `L`. -/
def spec_label_sum (g : LabelMetrics → ℚ)
    (docs : List (List (List Char × LabelMetrics))) (L : List Char) : ℚ :=
  (docs.map (fun doc =>
    ((doc.filter (fun e => decide (e.1 = L))).map (fun e => g e.2)).sum)).sum

/-- Modelled from the spec: the grand total of the reconstruction `g` over
every per-class entry of every document. -/
def spec_total (g : LabelMetrics → ℚ)
    (docs : List (List (List Char × LabelMetrics))) : ℚ :=
  (docs.map (fun doc => (doc.map (fun e => g e.2)).sum)).sum

lemma upd_same (f : List Char → ℚ) (l : List Char) (v : ℚ) : upd f l v l = f l + v := by
  unfold upd
  rw [if_pos rfl]

lemma upd_other (f : List Char → ℚ) (l x : List Char) (v : ℚ) (h : x ≠ l) :
    upd f l v x = f x := by
  unfold upd
  rw [if_neg h]

lemma agg_fold_entries (sel : AggState → List Char → ℚ) (g : LabelMetrics → ℚ)
    (hstep : ∀ st e, sel (agg_step st e) = upd (sel st) e.1 (g e.2)) :
    ∀ (entries : List (List Char × LabelMetrics)) (st : AggState) (L : List Char),
      sel (entries.foldl agg_step st) L
        = sel st L + ((entries.filter (fun e => decide (e.1 = L))).map (fun e => g e.2)).sum
  | [], st, L => by simp
  | e :: rest, st, L => by
    rw [List.foldl_cons, agg_fold_entries sel g hstep rest (agg_step st e) L, hstep]
    by_cases h : e.1 = L
    · rw [List.filter_cons_of_pos (by simpa using h)]
      subst h
      rw [upd_same]
      simp only [List.map_cons, List.sum_cons]
      ring
    · rw [List.filter_cons_of_neg (by simpa using h)]
      rw [upd_other _ _ _ _ (fun hx => h hx.symm)]

lemma agg_fold_docs (sel : AggState → List Char → ℚ) (g : LabelMetrics → ℚ)
    (hstep : ∀ st e, sel (agg_step st e) = upd (sel st) e.1 (g e.2)) :
    ∀ (docs : List (List (List Char × LabelMetrics))) (st : AggState) (L : List Char),
      sel (docs.foldl (fun st doc => doc.foldl agg_step st) st) L
        = sel st L + (docs.map (fun doc =>
            ((doc.filter (fun e => decide (e.1 = L))).map (fun e => g e.2)).sum)).sum
  | [], st, L => by simp
  | doc :: rest, st, L => by
    rw [List.foldl_cons, agg_fold_docs sel g hstep rest (doc.foldl agg_step st) L,
      agg_fold_entries sel g hstep doc st L]
    simp only [List.map_cons, List.sum_cons]
    ring

/-- The aggregation invariant: the collected label list is duplicate-free
and every accumulator is zero off the collected labels. -/
def agg_inv (st : AggState) : Prop :=
  st.all_labels.Nodup
  ∧ ∀ L, L ∉ st.all_labels → st.agg_tp L = 0 ∧ st.agg_fp L = 0 ∧ st.agg_fn L = 0

lemma agg_step_labels (st : AggState) (e : List Char × LabelMetrics) :
    (agg_step st e).all_labels
      = if e.1 ∈ st.all_labels then st.all_labels else st.all_labels ++ [e.1] := rfl

lemma agg_step_mem_labels (st : AggState) (e : List Char × LabelMetrics) :
    e.1 ∈ (agg_step st e).all_labels := by
  rw [agg_step_labels]
  by_cases h : e.1 ∈ st.all_labels
  · rwa [if_pos h]
  · rw [if_neg h]
    simp

lemma agg_step_labels_subset (st : AggState) (e : List Char × LabelMetrics)
    (L : List Char) (h : L ∈ st.all_labels) : L ∈ (agg_step st e).all_labels := by
  rw [agg_step_labels]
  by_cases he : e.1 ∈ st.all_labels
  · rwa [if_pos he]
  · rw [if_neg he]
    exact List.mem_append_left _ h

lemma agg_step_inv (st : AggState) (e : List Char × LabelMetrics) (h : agg_inv st) :
    agg_inv (agg_step st e) := by
  obtain ⟨hnd, hz⟩ := h
  constructor
  · rw [agg_step_labels]
    by_cases he : e.1 ∈ st.all_labels
    · rwa [if_pos he]
    · rw [if_neg he]
      simp [List.nodup_append, hnd, he]
  · intro L hL
    have hne : L ≠ e.1 := fun hx => hL (hx ▸ agg_step_mem_labels st e)
    have hL0 : L ∉ st.all_labels := fun hx => hL (agg_step_labels_subset st e L hx)
    obtain ⟨z1, z2, z3⟩ := hz L hL0
    refine ⟨?_, ?_, ?_⟩
    · show upd st.agg_tp e.1 (derived_tp e.2) L = 0
      rw [upd_other _ _ _ _ hne, z1]
    · show upd st.agg_fp e.1 (derived_fp e.2) L = 0
      rw [upd_other _ _ _ _ hne, z2]
    · show upd st.agg_fn e.1 (derived_fn e.2) L = 0
      rw [upd_other _ _ _ _ hne, z3]

lemma map_upd_not_mem (f : List Char → ℚ) (l : List Char) (v : ℚ) :
    ∀ (ls : List (List Char)), l ∉ ls → ls.map (upd f l v) = ls.map f
  | [], _ => rfl
  | a :: rest, h => by
    have ha : a ≠ l := fun hx => h (hx ▸ List.mem_cons_self _ _)
    rw [List.map_cons, List.map_cons, upd_other _ _ _ _ ha,
      map_upd_not_mem f l v rest (fun hx => h (List.mem_cons_of_mem _ hx))]

lemma sum_map_upd_mem (f : List Char → ℚ) (l : List Char) (v : ℚ) :
    ∀ (ls : List (List Char)), ls.Nodup → l ∈ ls →
      (ls.map (upd f l v)).sum = (ls.map f).sum + v
  | a :: rest, hnd, hmem => by
    rcases List.mem_cons.1 hmem with h | h
    · subst h
      have hnotin : l ∉ rest := (List.nodup_cons.1 hnd).1
      rw [List.map_cons, List.map_cons, List.sum_cons, List.sum_cons, upd_same,
        map_upd_not_mem f l v rest hnotin]
      ring
    · have ha : a ≠ l := fun hx => (List.nodup_cons.1 hnd).1 (hx ▸ h)
      rw [List.map_cons, List.map_cons, List.sum_cons, List.sum_cons,
        upd_other _ _ _ _ ha,
        sum_map_upd_mem f l v rest (List.nodup_cons.1 hnd).2 h]
      ring

/-- One `agg_step` adds exactly the reconstructed quantity to the running
label-set total of the corresponding accumulator. -/
lemma total_agg_step (sel : AggState → List Char → ℚ) (g : LabelMetrics → ℚ)
    (hstep : ∀ st e, sel (agg_step st e) = upd (sel st) e.1 (g e.2))
    (st : AggState) (e : List Char × LabelMetrics) (hinv : agg_inv st)
    (hz : ∀ L, L ∉ st.all_labels → sel st L = 0) :
    (((agg_step st e).all_labels).map (sel (agg_step st e))).sum
      = ((st.all_labels).map (sel st)).sum + g e.2 := by
  rw [agg_step_labels]
  by_cases he : e.1 ∈ st.all_labels
  · rw [if_pos he]
    have hfun : (agg_step st e).all_labels = st.all_labels := by
      rw [agg_step_labels, if_pos he]
    calc (st.all_labels.map (sel (agg_step st e))).sum
        = (st.all_labels.map (upd (sel st) e.1 (g e.2))).sum := by rw [hstep]
      _ = (st.all_labels.map (sel st)).sum + g e.2 :=
          sum_map_upd_mem (sel st) e.1 (g e.2) st.all_labels hinv.1 he
  · rw [if_neg he]
    have h0 : sel st e.1 = 0 := hz e.1 he
    calc ((st.all_labels ++ [e.1]).map (sel (agg_step st e))).sum
        = ((st.all_labels ++ [e.1]).map (upd (sel st) e.1 (g e.2))).sum := by rw [hstep]
      _ = (st.all_labels.map (upd (sel st) e.1 (g e.2))).sum
            + upd (sel st) e.1 (g e.2) e.1 := by
          rw [List.map_append, List.sum_append]
          simp
      _ = (st.all_labels.map (sel st)).sum + (sel st e.1 + g e.2) := by
          rw [map_upd_not_mem (sel st) e.1 (g e.2) st.all_labels he, upd_same]
      _ = (st.all_labels.map (sel st)).sum + g e.2 := by rw [h0]; ring

lemma agg_inv_init : agg_inv agg_init :=
  ⟨List.nodup_nil, fun _ _ => ⟨rfl, rfl, rfl⟩⟩

lemma agg_inv_fold_entries (entries : List (List Char × LabelMetrics)) (st : AggState)
    (h : agg_inv st) : agg_inv (entries.foldl agg_step st) :=
  foldl_preserve agg_step agg_inv (fun st e h => agg_step_inv st e h) entries st h

lemma total_fold_entries (sel : AggState → List Char → ℚ) (g : LabelMetrics → ℚ)
    (hstep : ∀ st e, sel (agg_step st e) = upd (sel st) e.1 (g e.2))
    (hz_of_inv : ∀ st, agg_inv st → ∀ L, L ∉ st.all_labels → sel st L = 0) :
    ∀ (entries : List (List Char × LabelMetrics)) (st : AggState), agg_inv st →
      (((entries.foldl agg_step st).all_labels).map (sel (entries.foldl agg_step st))).sum
        = ((st.all_labels).map (sel st)).sum + (entries.map (fun e => g e.2)).sum
  | [], st, _ => by simp
  | e :: rest, st, hinv => by
    rw [List.foldl_cons,
      total_fold_entries sel g hstep hz_of_inv rest (agg_step st e) (agg_step_inv st e hinv),
      total_agg_step sel g hstep st e hinv (hz_of_inv st hinv)]
    simp only [List.map_cons, List.sum_cons]
    ring

lemma total_fold_docs (sel : AggState → List Char → ℚ) (g : LabelMetrics → ℚ)
    (hstep : ∀ st e, sel (agg_step st e) = upd (sel st) e.1 (g e.2))
    (hz_of_inv : ∀ st, agg_inv st → ∀ L, L ∉ st.all_labels → sel st L = 0) :
    ∀ (docs : List (List (List Char × LabelMetrics))) (st : AggState), agg_inv st →
      (((docs.foldl (fun st doc => doc.foldl agg_step st) st).all_labels).map
          (sel (docs.foldl (fun st doc => doc.foldl agg_step st) st))).sum
        = ((st.all_labels).map (sel st)).sum
          + (docs.map (fun doc => (doc.map (fun e => g e.2)).sum)).sum
  | [], st, _ => by simp
  | doc :: rest, st, hinv => by
    rw [List.foldl_cons,
      total_fold_docs sel g hstep hz_of_inv rest (doc.foldl agg_step st)
        (agg_inv_fold_entries doc st hinv),
      total_fold_entries sel g hstep hz_of_inv doc st hinv]
    simp only [List.map_cons, List.sum_cons]
    ring

/-- Claim C8: the aggregation loop reconstructs per-label counts via
`tp = support*recall`, `fp = tp/precision - tp` when `precision > 0` else
`support*(1-recall)`, `fn = support - tp`, and the accumulated values equal
the closed-form per-label sums of these reconstructions across all
documents; the grand totals equal the sums across all labels, and the final
overall and per-class metrics are exactly the precision/recall/F1 formulas
recomputed from the summed reconstructions. -/
theorem aggregation_reconstructs_counts (docs : List (List (List Char × LabelMetrics))) :
    (∀ L, (aggregate_documents docs).agg_tp L = spec_label_sum derived_tp docs L
      ∧ (aggregate_documents docs).agg_fp L = spec_label_sum derived_fp docs L
      ∧ (aggregate_documents docs).agg_fn L = spec_label_sum derived_fn docs L)
    ∧ total_tp (aggregate_documents docs) = spec_total derived_tp docs
    ∧ total_fp (aggregate_documents docs) = spec_total derived_fp docs
    ∧ total_fn (aggregate_documents docs) = spec_total derived_fn docs
    ∧ final_overall (aggregate_documents docs)
        = { precision := metric_precision (spec_total derived_tp docs)
              (spec_total derived_fp docs),
            «recall» := metric_recall (spec_total derived_tp docs)
              (spec_total derived_fn docs),
            f1 := metric_f1
              (metric_precision (spec_total derived_tp docs) (spec_total derived_fp docs))
              (metric_recall (spec_total derived_tp docs) (spec_total derived_fn docs)),
            support := spec_total derived_tp docs + spec_total derived_fn docs }
    ∧ ∀ L, final_per_class (aggregate_documents docs) L
        = { precision := metric_precision (spec_label_sum derived_tp docs L)
              (spec_label_sum derived_fp docs L),
            «recall» := metric_recall (spec_label_sum derived_tp docs L)
              (spec_label_sum derived_fn docs L),
            f1 := metric_f1
              (metric_precision (spec_label_sum derived_tp docs L)
                (spec_label_sum derived_fp docs L))
              (metric_recall (spec_label_sum derived_tp docs L)
                (spec_label_sum derived_fn docs L)),
            support := spec_label_sum derived_tp docs L
              + spec_label_sum derived_fn docs L } := by
  have htp : ∀ L, (aggregate_documents docs).agg_tp L = spec_label_sum derived_tp docs L := by
    intro L
    unfold aggregate_documents spec_label_sum
    rw [agg_fold_docs (fun st => st.agg_tp) derived_tp (fun st e => rfl) docs agg_init L]
    show (0 : ℚ) + _ = _
    ring
  have hfp : ∀ L, (aggregate_documents docs).agg_fp L = spec_label_sum derived_fp docs L := by
    intro L
    unfold aggregate_documents spec_label_sum
    rw [agg_fold_docs (fun st => st.agg_fp) derived_fp (fun st e => rfl) docs agg_init L]
    show (0 : ℚ) + _ = _
    ring
  have hfn : ∀ L, (aggregate_documents docs).agg_fn L = spec_label_sum derived_fn docs L := by
    intro L
    unfold aggregate_documents spec_label_sum
    rw [agg_fold_docs (fun st => st.agg_fn) derived_fn (fun st e => rfl) docs agg_init L]
    show (0 : ℚ) + _ = _
    ring
  have http : total_tp (aggregate_documents docs) = spec_total derived_tp docs := by
    unfold total_tp aggregate_documents spec_total
    rw [total_fold_docs (fun st => st.agg_tp) derived_tp (fun st e => rfl)
      (fun st hinv L hL => (hinv.2 L hL).1) docs agg_init agg_inv_init]
    show (0 : ℚ) + _ = _
    ring
  have htfp : total_fp (aggregate_documents docs) = spec_total derived_fp docs := by
    unfold total_fp aggregate_documents spec_total
    rw [total_fold_docs (fun st => st.agg_fp) derived_fp (fun st e => rfl)
      (fun st hinv L hL => (hinv.2 L hL).2.1) docs agg_init agg_inv_init]
    show (0 : ℚ) + _ = _
    ring
  have htfn : total_fn (aggregate_documents docs) = spec_total derived_fn docs := by
    unfold total_fn aggregate_documents spec_total
    rw [total_fold_docs (fun st => st.agg_fn) derived_fn (fun st e => rfl)
      (fun st hinv L hL => (hinv.2 L hL).2.2) docs agg_init agg_inv_init]
    show (0 : ℚ) + _ = _
    ring
  refine ⟨fun L => ⟨htp L, hfp L, hfn L⟩, http, htfp, htfn, ?_, ?_⟩
  · unfold final_overall
    rw [http, htfp, htfn]
  · intro L
    unfold final_per_class
    rw [htp L, hfp L, hfn L]
